import Mathlib

/-!
# Ballot8 voting contract (`voting8.go`)

A shallow embedding of the chaincode `VotingContract` and of the four
transactions it exposes: `CastVote`, `PostVoting`, `QueryCastVote` and
`QueryPostVoting`.

* Go strings are Lean strings, a Go `error` is its message (`none` is `nil`).
  A Lean string is UTF-8 text; for what the contract does with a Go string
  that is not, section `Bytes` gives the same definitions on lists of bytes.
* The world state is a finite map from keys to stored bytes, here a function
  `String → Option B`; the stub's `GetState` and `PutState` may fail, key by
  key, as the peer decides.
* `encoding/json` is a library, not part of the contract: it is the
  parameter `Json B`, and the laws a theorem needs from it are hypotheses of
  that theorem.  `Doc` with `docJson` is one such codec (flat JSON objects of
  string fields), used to run the contract on concrete inputs.
* `crypto/sha1` is written out (`sha1Sum`), on naturals reduced modulo `2^32`.
-/

namespace Ballot8

/-! ## crypto/sha1 and the hexadecimal form of a digest -/

/-- A 32-bit word rotated left by `n` bits (`0 < n < 32`). -/
def rotl32 (x n : Nat) : Nat :=
  ((x <<< n) ||| (x >>> (32 - n))) % 2 ^ 32

/-- The bytes of a string, as `[]byte(s)` gives them (UTF-8). -/
def stringBytes (s : String) : List Nat :=
  s.data.flatMap fun c => (String.utf8EncodeChar c).map UInt8.toNat

/-- The big-endian bytes of `n`, `k` of them. -/
def bigEndian : Nat → Nat → List Nat
  | 0, _ => []
  | k + 1, n => (n / 256 ^ k % 256) :: bigEndian k n

/-- SHA-1 padding: a `0x80` byte, zeros up to 56 modulo 64, the bit length on 8 bytes. -/
def sha1Pad (msg : List Nat) : List Nat :=
  msg ++ 0x80 :: List.replicate ((119 - msg.length % 64) % 64) 0 ++ bigEndian 8 (8 * msg.length)

/-- The big-endian 32-bit words of a byte sequence (four bytes each). -/
def wordsOf : List Nat → List Nat
  | a :: b :: c :: d :: rest => (((a * 256 + b) * 256 + c) * 256 + d) :: wordsOf rest
  | _ => []

/-- The 80-word message schedule of one block, from its first 16 words. -/
def sha1Schedule (w : Array Nat) : Array Nat :=
  (List.range 64).foldl
    (fun w i =>
      w.push (rotl32 (w[i + 13]! ^^^ w[i + 8]! ^^^ w[i + 2]! ^^^ w[i]!) 1))
    w

/-- The round function and constant of round `t`. -/
def sha1Round (t b c d : Nat) : Nat × Nat :=
  if t < 20 then ((b &&& c) ||| ((b ^^^ 0xFFFFFFFF) &&& d), 0x5A827999)
  else if t < 40 then (b ^^^ c ^^^ d, 0x6ED9EBA1)
  else if t < 60 then ((b &&& c) ||| (b &&& d) ||| (c &&& d), 0x8F1BBCDC)
  else (b ^^^ c ^^^ d, 0xCA62C1D6)

/-- The five chaining words. -/
structure Sha1State where
  h0 : Nat
  h1 : Nat
  h2 : Nat
  h3 : Nat
  h4 : Nat

/-- The initial chaining value. -/
def sha1Init : Sha1State :=
  ⟨0x67452301, 0xEFCDAB89, 0x98BADCFE, 0x10325476, 0xC3D2E1F0⟩

/-- One block (16 words) folded into the chaining value. -/
def sha1Block (h : Sha1State) (block : List Nat) : Sha1State :=
  let w := sha1Schedule block.toArray
  let r := (List.range 80).foldl
    (fun (s : Sha1State) t =>
      let fk := sha1Round t s.h1 s.h2 s.h3
      let temp := (rotl32 s.h0 5 + fk.1 + s.h4 + fk.2 + w[t]!) % 2 ^ 32
      ⟨temp, s.h0, rotl32 s.h1 30, s.h2, s.h3⟩)
    h
  ⟨(h.h0 + r.h0) % 2 ^ 32, (h.h1 + r.h1) % 2 ^ 32, (h.h2 + r.h2) % 2 ^ 32,
   (h.h3 + r.h3) % 2 ^ 32, (h.h4 + r.h4) % 2 ^ 32⟩

/-- The blocks of a padded message folded in order; `n` counts the blocks. -/
def sha1Blocks : Nat → Sha1State → List Nat → Sha1State
  | 0, h, _ => h
  | n + 1, h, ws => sha1Blocks n (sha1Block h (ws.take 16)) (ws.drop 16)

/-- `sha1.Sum`: the 20-byte digest of a byte sequence. -/
def sha1Sum (msg : List Nat) : List Nat :=
  let padded := sha1Pad msg
  let h := sha1Blocks (padded.length / 64) sha1Init (wordsOf padded)
  bigEndian 4 h.h0 ++ bigEndian 4 h.h1 ++ bigEndian 4 h.h2 ++ bigEndian 4 h.h3 ++ bigEndian 4 h.h4

/-- A hexadecimal digit, lower case. -/
def hexDigit (n : Nat) : Char :=
  if n < 10 then Char.ofNat (48 + n) else Char.ofNat (87 + n)

/-- `fmt.Sprintf("%x", bytes)`: two lower-case hexadecimal digits for each byte. -/
def hexString (bytes : List Nat) : String :=
  String.mk (bytes.flatMap fun b => [hexDigit (b / 16 % 16), hexDigit (b % 16)])

/-- `hashWithSalt`: the hexadecimal SHA-1 digest of `input + salt`. -/
def hashWithSalt (input salt : String) : String :=
  let data := input ++ salt
  let hash := sha1Sum (stringBytes data)
  hexString hash

/-! ## Records and responses -/

/-- A Go `error`, by its message. -/
abbrev GoError := String

/-- The ballot stored under `"01" + ID`. -/
structure BallotRecord where
  Ballot : String
  VotingTokenHash : String
  ID : String
  deriving DecidableEq, Repr

/-- The identity record of the other channel. -/
structure VotingTokenRecord where
  VcmsTokenHash : String
  ID : String
  Salt : String
  VCMSdSignature : String
  deriving DecidableEq, Repr

/-- The cast marker stored under `"00" + ID`. -/
structure TransactionType1 where
  VcmsTokenHash : String
  ID : String
  VCMSdSignature : String
  deriving DecidableEq, Repr

/-- The reveal stored under `"10" + ID`. -/
structure PostVotingRecord where
  HashedVcmsToken : String
  VotingToken : String
  ID : String
  deriving DecidableEq, Repr

/-- The answer of `QueryCastVote`; a nil pointer is `none`. -/
structure QueryCastVoteResponse where
  VotingTokenHash : String
  HashedVotingToken : String
  Status : Bool
  TransactionType1 : Option TransactionType1
  Ballot : Option BallotRecord
  deriving DecidableEq, Repr

/-- The answer of `QueryPostVoting`; a nil pointer is `none`. -/
structure QueryPostVotingResponse where
  VotingTokenHash : String
  HashedVcmsToken : String
  Status : Bool
  PostVoting : Option PostVotingRecord
  deriving DecidableEq, Repr

/-! ## The libraries and the peer -/

/-- The uses the contract makes of `encoding/json`, over stored bytes `B`:
`json.Marshal` of the three records it writes and `json.Unmarshal` into the
four records it reads. -/
structure Json (B : Type) where
  marshalBallot : BallotRecord → Except GoError B
  marshalTransaction : TransactionType1 → Except GoError B
  marshalPostVoting : PostVotingRecord → Except GoError B
  unmarshalBallot : B → Except GoError BallotRecord
  unmarshalTransaction : B → Except GoError TransactionType1
  unmarshalPostVoting : B → Except GoError PostVotingRecord
  unmarshalToken : B → Except GoError VotingTokenRecord

/-- The response of a chaincode-to-chaincode call. -/
structure Response (B : Type) where
  Status : Int
  Message : String
  Payload : B

/-- The world state: the bytes stored under each key, `none` where there are none. -/
abbrev World (B : Type) := String → Option B

/-- What the peer decides during one transaction: the answer of
`InvokeChaincode` (chaincode name, arguments, channel) and, key by key, the
error with which `GetState` or `PutState` fails, if it does. -/
structure Stub (B : Type) where
  InvokeChaincode : String → List String → String → Response B
  getStateErr : String → Option GoError
  putStateErr : String → Option GoError

variable {B : Type}

/-- `stub.GetState(key)`: the stored bytes, nil when there are none, or an error. -/
def GetState (stub : Stub B) (w : World B) (key : String) : Except GoError (Option B) :=
  match stub.getStateErr key with
  | some err => .error err
  | none => .ok (w key)

/-- `stub.PutState(key, value)`: the world with `value` under `key`, or an error. -/
def PutState (stub : Stub B) (w : World B) (key : String) (value : B) :
    Except GoError (World B) :=
  match stub.putStateErr key with
  | some err => .error err
  | none => .ok (Function.update w key (some value))

/-! ## The contract -/

/-- `GetVotingTokenFromChannel2`: the identity record of a token hash, asked
of chaincode `voting6` on `mychannel1`. -/
def GetVotingTokenFromChannel2 (J : Json B) (stub : Stub B) (votingTokenhash : String) :
    Except GoError VotingTokenRecord :=
  let channel2Stub :=
    stub.InvokeChaincode "voting6" ["GetVotingTokenRecord", votingTokenhash] "mychannel1"
  if channel2Stub.Status ≠ 200 then
    .error ("failed to retrieve voting token from channel2: " ++ channel2Stub.Message)
  else
    match J.unmarshalToken channel2Stub.Payload with
    | .error err => .error ("failed to unmarshal voting token record: " ++ err)
    | .ok record => .ok record

/-- `idExistsInChannel1`: whether some bytes are stored under `id`. -/
def idExistsInChannel1 (stub : Stub B) (w : World B) (id : String) : Except GoError Bool :=
  match GetState stub w id with
  | .error err => .error ("failed to read from world state: " ++ err)
  | .ok ballotJSON => .ok ballotJSON.isSome

/-- `CastVote`: the error returned (`none` for nil) and the world after the
writes that were made. -/
def CastVote (J : Json B) (stub : Stub B) (w : World B) (ballot votingTokenhash : String) :
    Option GoError × World B :=
  match GetVotingTokenFromChannel2 J stub votingTokenhash with
  | .error err => (some ("failed to verify voting token: " ++ err), w)
  | .ok votingTokenRecord =>
    let Index1 := "00" ++ votingTokenRecord.ID
    let Index2 := "01" ++ votingTokenRecord.ID
    match idExistsInChannel1 stub w Index2 with
    | .error err => (some err, w)
    | .ok true => (some ("a vote with ID " ++ Index2 ++ " has already been cast"), w)
    | .ok false =>
      let hashedVotingToken := hashWithSalt votingTokenhash votingTokenRecord.Salt
      let ballotRecord : BallotRecord :=
        { Ballot := ballot, VotingTokenHash := hashedVotingToken, ID := Index2 }
      match J.marshalBallot ballotRecord with
      | .error err => (some ("failed to marshal ballot record: " ++ err), w)
      | .ok ballotJSON =>
        match PutState stub w Index2 ballotJSON with
        | .error err => (some ("failed to store ballot: " ++ err), w)
        | .ok w1 =>
          let transactionType1 : TransactionType1 :=
            { VcmsTokenHash := hashedVotingToken, ID := Index1,
              VCMSdSignature := votingTokenRecord.VCMSdSignature }
          match J.marshalTransaction transactionType1 with
          | .error err => (some ("failed to marshal transaction type1 record: " ++ err), w1)
          | .ok transactionJSON =>
            match PutState stub w1 Index1 transactionJSON with
            | .error err => (some ("failed to store transaction type1 record: " ++ err), w1)
            | .ok w2 => (none, w2)

/-- `PostVoting`: the error returned (`none` for nil) and the world after the
write, if it was made. -/
def PostVoting (J : Json B) (stub : Stub B) (w : World B)
    (votingTokenHash votingToken : String) : Option GoError × World B :=
  match GetVotingTokenFromChannel2 J stub votingTokenHash with
  | .error err => (some ("failed to verify voting token from channel1: " ++ err), w)
  | .ok votingTokenRecord =>
    let Index3 := "10" ++ votingTokenRecord.ID
    match idExistsInChannel1 stub w Index3 with
    | .error err => (some err, w)
    | .ok true =>
      (some ("a VCMS hash token record with ID " ++ Index3 ++ " already exists"), w)
    | .ok false =>
      let hashedVcmsToken :=
        hashWithSalt votingTokenRecord.VcmsTokenHash votingTokenRecord.Salt
      let postVotingRecord : PostVotingRecord :=
        { HashedVcmsToken := hashedVcmsToken, VotingToken := votingToken, ID := Index3 }
      match J.marshalPostVoting postVotingRecord with
      | .error err => (some ("failed to marshal post-voting record: " ++ err), w)
      | .ok postVotingJSON =>
        match PutState stub w Index3 postVotingJSON with
        | .error err => (some ("failed to store post-voting record: " ++ err), w)
        | .ok w1 => (none, w1)

/-- `QueryCastVote`: the response or the error, and the world, which it only reads. -/
def QueryCastVote (J : Json B) (stub : Stub B) (w : World B) (votingTokenHash : String) :
    Except GoError QueryCastVoteResponse × World B :=
  match GetVotingTokenFromChannel2 J stub votingTokenHash with
  | .error err => (.error ("failed to retrieve voting token: " ++ err), w)
  | .ok votingTokenRecord =>
    let hashedVotingToken := hashWithSalt votingTokenHash votingTokenRecord.Salt
    let userID := votingTokenRecord.ID
    let transactionType1ID := "00" ++ userID
    let ballotID := "01" ++ userID
    let result : QueryCastVoteResponse :=
      { VotingTokenHash := votingTokenHash, HashedVotingToken := hashedVotingToken,
        Status := false, TransactionType1 := none, Ballot := none }
    -- Check for TransactionType1 record
    let result :=
      match GetState stub w transactionType1ID with
      | .ok (some transactionJSON) =>
        match J.unmarshalTransaction transactionJSON with
        | .ok tx =>
          if tx.VcmsTokenHash = hashedVotingToken then
            { result with TransactionType1 := some tx, Status := true }
          else result
        | .error _ => result
      | _ => result
    -- Check for Ballot record
    let result :=
      match GetState stub w ballotID with
      | .ok (some ballotJSON) =>
        match J.unmarshalBallot ballotJSON with
        | .ok ballot =>
          if ballot.VotingTokenHash = hashedVotingToken then
            { result with Ballot := some ballot, Status := true }
          else result
        | .error _ => result
      | _ => result
    if !result.Status then
      (.error ("no CastVote transactions found for votingTokenHash " ++ votingTokenHash), w)
    else (.ok result, w)

/-- `QueryPostVoting`: the response or the error, and the world, which it only reads. -/
def QueryPostVoting (J : Json B) (stub : Stub B) (w : World B) (votingTokenHash : String) :
    Except GoError QueryPostVotingResponse × World B :=
  match GetVotingTokenFromChannel2 J stub votingTokenHash with
  | .error err => (.error ("failed to retrieve voting token: " ++ err), w)
  | .ok votingTokenRecord =>
    let hashedVcmsToken :=
      hashWithSalt votingTokenRecord.VcmsTokenHash votingTokenRecord.Salt
    let userID := votingTokenRecord.ID
    let postVotingID := "10" ++ userID
    let result : QueryPostVotingResponse :=
      { VotingTokenHash := votingTokenHash, HashedVcmsToken := hashedVcmsToken,
        Status := false, PostVoting := none }
    match GetState stub w postVotingID with
    | .ok (some postVotingJSON) =>
      match J.unmarshalPostVoting postVotingJSON with
      | .error err => (.error ("failed to unmarshal post voting record: " ++ err), w)
      | .ok postVoting =>
        if postVoting.HashedVcmsToken = hashedVcmsToken then
          (.ok { result with PostVoting := some postVoting, Status := true }, w)
        else
          (.error ("no matching PostVoting transactions found for votingTokenHash "
            ++ votingTokenHash), w)
    | _ =>
      (.error ("no PostVoting transactions found for votingTokenHash " ++ votingTokenHash), w)

/-! ## The keys -/

/-- The three kinds of record the contract stores for an identity. -/
inductive Kind
  | CastMarker
  | Ballot
  | PostVotingReveal
  deriving DecidableEq, Repr

/-- The two characters the contract puts before the identity: `"00"` for
`Index1`, `"01"` for `Index2`, `"10"` for `Index3`. -/
def Kind.code : Kind → String
  | .CastMarker => "00"
  | .Ballot => "01"
  | .PostVotingReveal => "10"

/-- The key of a record: `Index1`, `Index2` and `Index3` of the contract. -/
def compositeKey (k : Kind) (identityID : String) : String :=
  k.code ++ identityID

/-! ## A codec and a peer to run the contract on -/

/-- Stored bytes, read as JSON: a flat object of string fields, or bytes that
are not JSON. -/
inductive Doc
  | object (fields : List (String × String))
  | raw (text : String)
  deriving DecidableEq, Repr

/-- The string a decoded field receives: the value of the last member of that
name, and the empty string when there is none. -/
def Doc.field (fields : List (String × String)) (name : String) : String :=
  (fields.reverse.lookup name).getD ""

/-- A JSON codec over `Doc`: a record is written as the object of its fields
under their JSON names, and read back field by field; bytes that are not JSON
are refused. -/
def docJson : Json Doc where
  marshalBallot r :=
    .ok (.object [("ballot", r.Ballot), ("votingTokenHash", r.VotingTokenHash), ("id", r.ID)])
  marshalTransaction r :=
    .ok (.object [("vcmsTokenHash", r.VcmsTokenHash), ("id", r.ID),
      ("vcmsdSignature", r.VCMSdSignature)])
  marshalPostVoting r :=
    .ok (.object [("hashedVcmsToken", r.HashedVcmsToken), ("votingToken", r.VotingToken),
      ("id", r.ID)])
  unmarshalBallot
    | .object fs =>
      .ok { Ballot := Doc.field fs "ballot", VotingTokenHash := Doc.field fs "votingTokenHash",
            ID := Doc.field fs "id" }
    | .raw _ => .error "invalid character looking for beginning of value"
  unmarshalTransaction
    | .object fs =>
      .ok { VcmsTokenHash := Doc.field fs "vcmsTokenHash", ID := Doc.field fs "id",
            VCMSdSignature := Doc.field fs "vcmsdSignature" }
    | .raw _ => .error "invalid character looking for beginning of value"
  unmarshalPostVoting
    | .object fs =>
      .ok { HashedVcmsToken := Doc.field fs "hashedVcmsToken",
            VotingToken := Doc.field fs "votingToken", ID := Doc.field fs "id" }
    | .raw _ => .error "invalid character looking for beginning of value"
  unmarshalToken
    | .object fs =>
      .ok { VcmsTokenHash := Doc.field fs "vcmsTokenHash", ID := Doc.field fs "id",
            Salt := Doc.field fs "salt", VCMSdSignature := Doc.field fs "vcmsdSignature" }
    | .raw _ => .error "invalid character looking for beginning of value"

/-- The payload chaincode `voting6` returns for an identity record. -/
def tokenDoc (r : VotingTokenRecord) : Doc :=
  .object [("vcmsTokenHash", r.VcmsTokenHash), ("id", r.ID), ("salt", r.Salt),
    ("vcmsdSignature", r.VCMSdSignature)]

/-- A peer on which no read or write fails and on which `voting6` answers
every request with status 200 and the record `r`. -/
def peerOf (r : VotingTokenRecord) : Stub Doc where
  InvokeChaincode _ _ _ := { Status := 200, Message := "", Payload := tokenDoc r }
  getStateErr _ := none
  putStateErr _ := none

/-- The world state in which nothing is stored. -/
def emptyWorld : World Doc := fun _ => none

/-- The identity record of the scenario: identity `I1`, salt `s1`, token
fingerprint `tf1`. -/
def recI1 : VotingTokenRecord :=
  { VcmsTokenHash := "tf1", ID := "I1", Salt := "s1", VCMSdSignature := "sig1" }

/-- A world in which only a cast marker of identity `I1` is stored. -/
def markedWorld : World Doc :=
  Function.update emptyWorld "00I1"
    (some (.object [("vcmsTokenHash", "h0"), ("id", "00I1"), ("vcmsdSignature", "sig0")]))

/-- An identity record whose identity is the empty string. -/
def recEmpty : VotingTokenRecord :=
  { VcmsTokenHash := "tf0", ID := "", Salt := "s0", VCMSdSignature := "sig0" }

/-- A world in which the reveal key of identity `I1` holds bytes that are not JSON. -/
def junkWorld : World Doc :=
  Function.update emptyWorld "10I1" (some (.raw "?"))

/-- The world after identity `I1` has voted `yes` with token `tf1`. -/
def votedWorld : World Doc :=
  (CastVote docJson (peerOf recI1) emptyWorld "yes" "tf1").2

/-- The peer of `peerOf recI1`, except that reading the marker key `"00I1"` fails. -/
def markerUnreadable : Stub Doc where
  InvokeChaincode := (peerOf recI1).InvokeChaincode
  getStateErr key := if key = "00I1" then some "ledger unavailable" else none
  putStateErr _ := none

/-- The peer of `peerOf recI1`, except that writing the marker key `"00I1"` fails. -/
def markerUnwritable : Stub Doc where
  InvokeChaincode := (peerOf recI1).InvokeChaincode
  getStateErr _ := none
  putStateErr key := if key = "00I1" then some "ledger unavailable" else none

/-- A peer on which the other channel answers every request with status 500. -/
def peerDown : Stub Doc where
  InvokeChaincode _ _ _ := { Status := 500, Message := "token not found", Payload := .raw "" }
  getStateErr _ := none
  putStateErr _ := none

/-- An identity record of identity `I2` with salt `c`. -/
def recSaltC : VotingTokenRecord :=
  { VcmsTokenHash := "ab", ID := "I2", Salt := "c", VCMSdSignature := "sig2" }

/-- An identity record of identity `I2` with salt `bc`. -/
def recSaltBC : VotingTokenRecord :=
  { VcmsTokenHash := "a", ID := "I2", Salt := "bc", VCMSdSignature := "sig2" }

/-- A peer on which no read or write fails and on which `voting6` answers the
token `ab` with `recSaltC` and every other token with `recSaltBC`. -/
def peerTwoSalts : Stub Doc where
  InvokeChaincode _ args _ :=
    if args = ["GetVotingTokenRecord", "ab"] then
      { Status := 200, Message := "", Payload := tokenDoc recSaltC }
    else { Status := 200, Message := "", Payload := tokenDoc recSaltBC }
  getStateErr _ := none
  putStateErr _ := none

/-! ## Sequences of transactions -/

/-- One invocation of the contract: the transaction, what the peer decides
during it, and the arguments. -/
inductive Call (B : Type)
  | castVote (stub : Stub B) (ballot votingTokenhash : String)
  | postVoting (stub : Stub B) (votingTokenHash votingToken : String)
  | queryCastVote (stub : Stub B) (votingTokenHash : String)
  | queryPostVoting (stub : Stub B) (votingTokenHash : String)

/-- Whether a result is a response and not an error. -/
def succeeded {α : Type} : Except GoError α → Bool
  | .ok _ => true
  | .error _ => false

/-- A call on the world `w`: whether it succeeds, and the world after the
writes it made. -/
def Call.exec (J : Json B) (w : World B) : Call B → Bool × World B
  | .castVote stub ballot t =>
    ((CastVote J stub w ballot t).1.isNone, (CastVote J stub w ballot t).2)
  | .postVoting stub t v => ((PostVoting J stub w t v).1.isNone, (PostVoting J stub w t v).2)
  | .queryCastVote stub t => (succeeded (QueryCastVote J stub w t).1, (QueryCastVote J stub w t).2)
  | .queryPostVoting stub t =>
    (succeeded (QueryPostVoting J stub w t).1, (QueryPostVoting J stub w t).2)

/-- The world after a call whose writes stay, whether it fails or not. -/
def Call.writes (J : Json B) (w : World B) (c : Call B) : World B :=
  (c.exec J w).2

/-- The world after a call run as one transaction: the writes of a call that
fails are not committed. -/
def Call.commit (J : Json B) (w : World B) (c : Call B) : World B :=
  if (c.exec J w).1 then (c.exec J w).2 else w

/-- The world after a sequence of calls whose writes all stay. -/
def runWrites (J : Json B) : World B → List (Call B) → World B
  | w, [] => w
  | w, c :: cs => runWrites J (c.writes J w) cs

/-- The world after a sequence of calls, each run as one transaction. -/
def runCommitted (J : Json B) : World B → List (Call B) → World B
  | w, [] => w
  | w, c :: cs => runCommitted J (c.commit J w) cs

/-- The world in which nothing is stored, over any stored bytes. -/
def emptyLedger : World B := fun _ => none

/-! ## The records a query keeps -/

/-- The marker read under `"00" + ID` decodes to `tx`, and the fingerprint
stored in it is the one computed from the token `t` and the salt. -/
def MarkerMatched (J : Json B) (stub : Stub B) (w : World B) (r : VotingTokenRecord)
    (t : String) (tx : TransactionType1) : Prop :=
  ∃ bs, GetState stub w ("00" ++ r.ID) = .ok (some bs) ∧
    J.unmarshalTransaction bs = .ok tx ∧ tx.VcmsTokenHash = hashWithSalt t r.Salt

/-- The ballot read under `"01" + ID` decodes to `bl`, and the fingerprint
stored in it is the one computed from the token `t` and the salt. -/
def BallotMatched (J : Json B) (stub : Stub B) (w : World B) (r : VotingTokenRecord)
    (t : String) (bl : BallotRecord) : Prop :=
  ∃ bs, GetState stub w ("01" ++ r.ID) = .ok (some bs) ∧
    J.unmarshalBallot bs = .ok bl ∧ bl.VotingTokenHash = hashWithSalt t r.Salt

/-- The marker `QueryCastVote` puts in its response: the record read and
decoded under `"00" + id`, when its fingerprint is `h`. -/
def keptMarker (J : Json B) (stub : Stub B) (w : World B) (id h : String) :
    Option TransactionType1 :=
  match GetState stub w ("00" ++ id) with
  | .ok (some bs) =>
    match J.unmarshalTransaction bs with
    | .ok tx => if tx.VcmsTokenHash = h then some tx else none
    | .error _ => none
  | _ => none

/-- The ballot `QueryCastVote` puts in its response: the record read and
decoded under `"01" + id`, when its fingerprint is `h`. -/
def keptBallot (J : Json B) (stub : Stub B) (w : World B) (id h : String) :
    Option BallotRecord :=
  match GetState stub w ("01" ++ id) with
  | .ok (some bs) =>
    match J.unmarshalBallot bs with
    | .ok bl => if bl.VotingTokenHash = h then some bl else none
    | .error _ => none
  | _ => none

/-- The two not-found errors of `QueryPostVoting` for the token `t`: nothing
read under the reveal key, or a reveal with another fingerprint. -/
def NotFound (t : String) (e : GoError) : Prop :=
  e = "no PostVoting transactions found for votingTokenHash " ++ t ∨
  e = "no matching PostVoting transactions found for votingTokenHash " ++ t

/-! ## The contract on the bytes of Go strings

A Go string is a sequence of bytes, which need not be UTF-8.  The definitions
above take a Go string as a Lean string, that is, as a Go string that is valid
UTF-8 text.  The definitions of this section are the same lines of
`voting8.go` with a Go string as the list of its bytes, so that an argument
that is not UTF-8 can be given to them; `crypto/sha1` is the `sha1Sum` above,
and `encoding/json` is again a parameter. -/

namespace Bytes

/-- A Go string: the sequence of its bytes, each a natural below 256. -/
abbrev GoString := List Nat

/-- A string literal of the source, as the bytes of its UTF-8 text. -/
def lit (s : String) : GoString := stringBytes s

/-- A hexadecimal digit, lower case, as a byte. -/
def hexDigit (n : Nat) : Nat :=
  if n < 10 then 48 + n else 87 + n

/-- `fmt.Sprintf("%x", bytes)`: two lower-case hexadecimal digits for each byte. -/
def hexString (bytes : List Nat) : GoString :=
  bytes.flatMap fun b => [hexDigit (b / 16 % 16), hexDigit (b % 16)]

/-- `hashWithSalt`: the hexadecimal SHA-1 digest of `input + salt`. -/
def hashWithSalt (input salt : GoString) : GoString :=
  let data := input ++ salt
  let hash := sha1Sum data
  hexString hash

/-- A Go `error`, by its message. -/
abbrev GoError := GoString

/-- The ballot stored under `"01" + ID`. -/
structure BallotRecord where
  Ballot : GoString
  VotingTokenHash : GoString
  ID : GoString
  deriving DecidableEq, Repr

/-- The identity record of the other channel. -/
structure VotingTokenRecord where
  VcmsTokenHash : GoString
  ID : GoString
  Salt : GoString
  VCMSdSignature : GoString
  deriving DecidableEq, Repr

/-- The cast marker stored under `"00" + ID`. -/
structure TransactionType1 where
  VcmsTokenHash : GoString
  ID : GoString
  VCMSdSignature : GoString
  deriving DecidableEq, Repr

/-- The reveal stored under `"10" + ID`. -/
structure PostVotingRecord where
  HashedVcmsToken : GoString
  VotingToken : GoString
  ID : GoString
  deriving DecidableEq, Repr

/-- The answer of `QueryCastVote`; a nil pointer is `none`. -/
structure QueryCastVoteResponse where
  VotingTokenHash : GoString
  HashedVotingToken : GoString
  Status : Bool
  TransactionType1 : Option TransactionType1
  Ballot : Option BallotRecord
  deriving DecidableEq, Repr

/-- The answer of `QueryPostVoting`; a nil pointer is `none`. -/
structure QueryPostVotingResponse where
  VotingTokenHash : GoString
  HashedVcmsToken : GoString
  Status : Bool
  PostVoting : Option PostVotingRecord
  deriving DecidableEq, Repr

/-- The uses the contract makes of `encoding/json`, over stored bytes `B`. -/
structure Json (B : Type) where
  marshalBallot : BallotRecord → Except GoError B
  marshalTransaction : TransactionType1 → Except GoError B
  marshalPostVoting : PostVotingRecord → Except GoError B
  unmarshalBallot : B → Except GoError BallotRecord
  unmarshalTransaction : B → Except GoError TransactionType1
  unmarshalPostVoting : B → Except GoError PostVotingRecord
  unmarshalToken : B → Except GoError VotingTokenRecord

/-- The response of a chaincode-to-chaincode call. -/
structure Response (B : Type) where
  Status : Int
  Message : GoString
  Payload : B

/-- The world state: the bytes stored under each key, `none` where there are none. -/
abbrev World (B : Type) := GoString → Option B

/-- What the peer decides during one transaction: the answer of
`InvokeChaincode` and, key by key, the error with which `GetState` or
`PutState` fails, if it does. -/
structure Stub (B : Type) where
  InvokeChaincode : GoString → List GoString → GoString → Response B
  getStateErr : GoString → Option GoError
  putStateErr : GoString → Option GoError

/-- `stub.GetState(key)`: the stored bytes, nil when there are none, or an error. -/
def GetState (stub : Stub B) (w : World B) (key : GoString) : Except GoError (Option B) :=
  match stub.getStateErr key with
  | some err => .error err
  | none => .ok (w key)

/-- `stub.PutState(key, value)`: the world with `value` under `key`, or an error. -/
def PutState (stub : Stub B) (w : World B) (key : GoString) (value : B) :
    Except GoError (World B) :=
  match stub.putStateErr key with
  | some err => .error err
  | none => .ok (Function.update w key (some value))

/-- `GetVotingTokenFromChannel2`: the identity record of a token hash, asked
of chaincode `voting6` on `mychannel1`. -/
def GetVotingTokenFromChannel2 (J : Json B) (stub : Stub B) (votingTokenhash : GoString) :
    Except GoError VotingTokenRecord :=
  let channel2Stub :=
    stub.InvokeChaincode (lit "voting6") [lit "GetVotingTokenRecord", votingTokenhash]
      (lit "mychannel1")
  if channel2Stub.Status ≠ 200 then
    .error (lit "failed to retrieve voting token from channel2: " ++ channel2Stub.Message)
  else
    match J.unmarshalToken channel2Stub.Payload with
    | .error err => .error (lit "failed to unmarshal voting token record: " ++ err)
    | .ok record => .ok record

/-- `idExistsInChannel1`: whether some bytes are stored under `id`. -/
def idExistsInChannel1 (stub : Stub B) (w : World B) (id : GoString) : Except GoError Bool :=
  match GetState stub w id with
  | .error err => .error (lit "failed to read from world state: " ++ err)
  | .ok ballotJSON => .ok ballotJSON.isSome

/-- `CastVote`: the error returned (`none` for nil) and the world after the
writes that were made. -/
def CastVote (J : Json B) (stub : Stub B) (w : World B) (ballot votingTokenhash : GoString) :
    Option GoError × World B :=
  match GetVotingTokenFromChannel2 J stub votingTokenhash with
  | .error err => (some (lit "failed to verify voting token: " ++ err), w)
  | .ok votingTokenRecord =>
    let Index1 := lit "00" ++ votingTokenRecord.ID
    let Index2 := lit "01" ++ votingTokenRecord.ID
    match idExistsInChannel1 stub w Index2 with
    | .error err => (some err, w)
    | .ok true =>
      (some (lit "a vote with ID " ++ Index2 ++ lit " has already been cast"), w)
    | .ok false =>
      let hashedVotingToken := hashWithSalt votingTokenhash votingTokenRecord.Salt
      let ballotRecord : BallotRecord :=
        { Ballot := ballot, VotingTokenHash := hashedVotingToken, ID := Index2 }
      match J.marshalBallot ballotRecord with
      | .error err => (some (lit "failed to marshal ballot record: " ++ err), w)
      | .ok ballotJSON =>
        match PutState stub w Index2 ballotJSON with
        | .error err => (some (lit "failed to store ballot: " ++ err), w)
        | .ok w1 =>
          let transactionType1 : TransactionType1 :=
            { VcmsTokenHash := hashedVotingToken, ID := Index1,
              VCMSdSignature := votingTokenRecord.VCMSdSignature }
          match J.marshalTransaction transactionType1 with
          | .error err =>
            (some (lit "failed to marshal transaction type1 record: " ++ err), w1)
          | .ok transactionJSON =>
            match PutState stub w1 Index1 transactionJSON with
            | .error err =>
              (some (lit "failed to store transaction type1 record: " ++ err), w1)
            | .ok w2 => (none, w2)

/-- `PostVoting`: the error returned (`none` for nil) and the world after the
write, if it was made. -/
def PostVoting (J : Json B) (stub : Stub B) (w : World B)
    (votingTokenHash votingToken : GoString) : Option GoError × World B :=
  match GetVotingTokenFromChannel2 J stub votingTokenHash with
  | .error err => (some (lit "failed to verify voting token from channel1: " ++ err), w)
  | .ok votingTokenRecord =>
    let Index3 := lit "10" ++ votingTokenRecord.ID
    match idExistsInChannel1 stub w Index3 with
    | .error err => (some err, w)
    | .ok true =>
      (some (lit "a VCMS hash token record with ID " ++ Index3 ++ lit " already exists"), w)
    | .ok false =>
      let hashedVcmsToken :=
        hashWithSalt votingTokenRecord.VcmsTokenHash votingTokenRecord.Salt
      let postVotingRecord : PostVotingRecord :=
        { HashedVcmsToken := hashedVcmsToken, VotingToken := votingToken, ID := Index3 }
      match J.marshalPostVoting postVotingRecord with
      | .error err => (some (lit "failed to marshal post-voting record: " ++ err), w)
      | .ok postVotingJSON =>
        match PutState stub w Index3 postVotingJSON with
        | .error err => (some (lit "failed to store post-voting record: " ++ err), w)
        | .ok w1 => (none, w1)

/-- `QueryCastVote`: the response or the error, and the world, which it only reads. -/
def QueryCastVote (J : Json B) (stub : Stub B) (w : World B) (votingTokenHash : GoString) :
    Except GoError QueryCastVoteResponse × World B :=
  match GetVotingTokenFromChannel2 J stub votingTokenHash with
  | .error err => (.error (lit "failed to retrieve voting token: " ++ err), w)
  | .ok votingTokenRecord =>
    let hashedVotingToken := hashWithSalt votingTokenHash votingTokenRecord.Salt
    let userID := votingTokenRecord.ID
    let transactionType1ID := lit "00" ++ userID
    let ballotID := lit "01" ++ userID
    let result : QueryCastVoteResponse :=
      { VotingTokenHash := votingTokenHash, HashedVotingToken := hashedVotingToken,
        Status := false, TransactionType1 := none, Ballot := none }
    -- Check for TransactionType1 record
    let result :=
      match GetState stub w transactionType1ID with
      | .ok (some transactionJSON) =>
        match J.unmarshalTransaction transactionJSON with
        | .ok tx =>
          if tx.VcmsTokenHash = hashedVotingToken then
            { result with TransactionType1 := some tx, Status := true }
          else result
        | .error _ => result
      | _ => result
    -- Check for Ballot record
    let result :=
      match GetState stub w ballotID with
      | .ok (some ballotJSON) =>
        match J.unmarshalBallot ballotJSON with
        | .ok ballot =>
          if ballot.VotingTokenHash = hashedVotingToken then
            { result with Ballot := some ballot, Status := true }
          else result
        | .error _ => result
      | _ => result
    if !result.Status then
      (.error (lit "no CastVote transactions found for votingTokenHash " ++ votingTokenHash),
        w)
    else (.ok result, w)

/-- `QueryPostVoting`: the response or the error, and the world, which it only reads. -/
def QueryPostVoting (J : Json B) (stub : Stub B) (w : World B) (votingTokenHash : GoString) :
    Except GoError QueryPostVotingResponse × World B :=
  match GetVotingTokenFromChannel2 J stub votingTokenHash with
  | .error err => (.error (lit "failed to retrieve voting token: " ++ err), w)
  | .ok votingTokenRecord =>
    let hashedVcmsToken :=
      hashWithSalt votingTokenRecord.VcmsTokenHash votingTokenRecord.Salt
    let userID := votingTokenRecord.ID
    let postVotingID := lit "10" ++ userID
    let result : QueryPostVotingResponse :=
      { VotingTokenHash := votingTokenHash, HashedVcmsToken := hashedVcmsToken,
        Status := false, PostVoting := none }
    match GetState stub w postVotingID with
    | .ok (some postVotingJSON) =>
      match J.unmarshalPostVoting postVotingJSON with
      | .error err => (.error (lit "failed to unmarshal post voting record: " ++ err), w)
      | .ok postVoting =>
        if postVoting.HashedVcmsToken = hashedVcmsToken then
          (.ok { result with PostVoting := some postVoting, Status := true }, w)
        else
          (.error (lit "no matching PostVoting transactions found for votingTokenHash "
            ++ votingTokenHash), w)
    | _ =>
      (.error (lit "no PostVoting transactions found for votingTokenHash "
        ++ votingTokenHash), w)

/-! ### Strings through `encoding/json`

`json.Marshal` writes a Go string as a JSON string "coerced to valid UTF-8,
replacing invalid bytes with the Unicode replacement rune", and
`json.Unmarshal` reads a JSON string back as the UTF-8 text it holds.  A
string that went through both is `toValidUTF8` of the string. -/

/-- The size `utf8.DecodeRuneInString` returns at the start of the bytes when
they start with a valid encoding, and `0` when it returns `RuneError` with
size 1 (or the bytes are none). -/
def runeSize : GoString → Nat
  | [] => 0
  | s0 :: rest =>
    if s0 < 0x80 then 1
    else if s0 < 0xC2 then 0
    else if s0 ≤ 0xDF then
      match rest with
      | s1 :: _ => if 0x80 ≤ s1 ∧ s1 ≤ 0xBF then 2 else 0
      | _ => 0
    else if s0 ≤ 0xEF then
      match rest with
      | s1 :: s2 :: _ =>
        if (if s0 = 0xE0 then 0xA0 else 0x80) ≤ s1 ∧ s1 ≤ (if s0 = 0xED then 0x9F else 0xBF) ∧
            0x80 ≤ s2 ∧ s2 ≤ 0xBF then 3 else 0
      | _ => 0
    else if s0 ≤ 0xF4 then
      match rest with
      | s1 :: s2 :: s3 :: _ =>
        if (if s0 = 0xF0 then 0x90 else 0x80) ≤ s1 ∧ s1 ≤ (if s0 = 0xF4 then 0x8F else 0xBF) ∧
            0x80 ≤ s2 ∧ s2 ≤ 0xBF ∧ 0x80 ≤ s3 ∧ s3 ≤ 0xBF then 4 else 0
      | _ => 0
    else 0

/-- The bytes with every byte that starts no valid encoding replaced by the
encoding `EF BF BD` of U+FFFD; `k` bytes are still to be copied of the
encoding under way. -/
def coerce : Nat → GoString → GoString
  | _, [] => []
  | k + 1, b :: rest => b :: coerce k rest
  | 0, b :: rest =>
    match runeSize (b :: rest) with
    | 0 => 0xEF :: 0xBF :: 0xBD :: coerce 0 rest
    | n + 1 => b :: coerce n rest

/-- A Go string as it is read back from the JSON string written for it. -/
def toValidUTF8 (s : GoString) : GoString :=
  coerce 0 s

/-- Whether the bytes are valid UTF-8 (`utf8.Valid`); `k` bytes are still to
be passed of the encoding under way. -/
def validFrom : Nat → GoString → Bool
  | _, [] => true
  | k + 1, _ :: rest => validFrom k rest
  | 0, b :: rest =>
    match runeSize (b :: rest) with
    | 0 => false
    | n + 1 => validFrom n rest

/-- Whether a Go string is valid UTF-8. -/
def validUTF8 (s : GoString) : Bool :=
  validFrom 0 s

/-- What `encoding/json` does to the records the contract stores: a record
written by `json.Marshal` and read by `json.Unmarshal` comes back with each
of its strings coerced to valid UTF-8. -/
def StoresCoerced (J : Json B) : Prop :=
  (∀ r bs, J.marshalBallot r = .ok bs →
    J.unmarshalBallot bs =
      .ok ⟨toValidUTF8 r.Ballot, toValidUTF8 r.VotingTokenHash, toValidUTF8 r.ID⟩) ∧
  (∀ r bs, J.marshalPostVoting r = .ok bs →
    J.unmarshalPostVoting bs =
      .ok ⟨toValidUTF8 r.HashedVcmsToken, toValidUTF8 r.VotingToken, toValidUTF8 r.ID⟩)

/-! ### A codec and a peer to run the contract on -/

/-- Stored bytes, read as JSON: a flat object of string fields, or bytes that
are not JSON. -/
inductive Doc
  | object (fields : List (String × GoString))
  | raw (text : GoString)
  deriving DecidableEq, Repr

/-- The string a decoded field receives: the value of the last member of that
name, and the empty string when there is none. -/
def Doc.field (fields : List (String × GoString)) (name : String) : GoString :=
  (fields.reverse.lookup name).getD []

/-- A JSON codec over `Doc` that treats strings as `encoding/json` does: a
record is written as the object of its fields under their JSON names, each
string coerced to valid UTF-8, and read back field by field; bytes that are
not JSON are refused. -/
def goJson : Json Doc where
  marshalBallot r :=
    .ok (.object [("ballot", toValidUTF8 r.Ballot),
      ("votingTokenHash", toValidUTF8 r.VotingTokenHash), ("id", toValidUTF8 r.ID)])
  marshalTransaction r :=
    .ok (.object [("vcmsTokenHash", toValidUTF8 r.VcmsTokenHash), ("id", toValidUTF8 r.ID),
      ("vcmsdSignature", toValidUTF8 r.VCMSdSignature)])
  marshalPostVoting r :=
    .ok (.object [("hashedVcmsToken", toValidUTF8 r.HashedVcmsToken),
      ("votingToken", toValidUTF8 r.VotingToken), ("id", toValidUTF8 r.ID)])
  unmarshalBallot
    | .object fs =>
      .ok { Ballot := Doc.field fs "ballot", VotingTokenHash := Doc.field fs "votingTokenHash",
            ID := Doc.field fs "id" }
    | .raw _ => .error (lit "invalid character looking for beginning of value")
  unmarshalTransaction
    | .object fs =>
      .ok { VcmsTokenHash := Doc.field fs "vcmsTokenHash", ID := Doc.field fs "id",
            VCMSdSignature := Doc.field fs "vcmsdSignature" }
    | .raw _ => .error (lit "invalid character looking for beginning of value")
  unmarshalPostVoting
    | .object fs =>
      .ok { HashedVcmsToken := Doc.field fs "hashedVcmsToken",
            VotingToken := Doc.field fs "votingToken", ID := Doc.field fs "id" }
    | .raw _ => .error (lit "invalid character looking for beginning of value")
  unmarshalToken
    | .object fs =>
      .ok { VcmsTokenHash := Doc.field fs "vcmsTokenHash", ID := Doc.field fs "id",
            Salt := Doc.field fs "salt", VCMSdSignature := Doc.field fs "vcmsdSignature" }
    | .raw _ => .error (lit "invalid character looking for beginning of value")

/-- The identity record of the scenario: identity `I1`, salt `s1`, token
fingerprint `tf1`. -/
def recI1 : VotingTokenRecord :=
  { VcmsTokenHash := lit "tf1", ID := lit "I1", Salt := lit "s1", VCMSdSignature := lit "sig1" }

/-- A peer on which no read or write fails and on which `voting6` answers
every request with status 200 and the record `recI1`. -/
def peerI1 : Stub Doc where
  InvokeChaincode _ _ _ :=
    { Status := 200, Message := [],
      Payload := .object [("vcmsTokenHash", recI1.VcmsTokenHash), ("id", recI1.ID),
        ("salt", recI1.Salt), ("vcmsdSignature", recI1.VCMSdSignature)] }
  getStateErr _ := none
  putStateErr _ := none

/-- The world in which nothing is stored. -/
def noRecords : World Doc := fun _ => none

/-- The Go string `"v\xff\xfe"`: the letter `v` and two bytes that are not UTF-8. -/
def brokenBallot : GoString := [0x76, 0xFF, 0xFE]

/-- The Go string `"t\xff"`: the letter `t` and a byte that is not UTF-8. -/
def brokenToken : GoString := [0x74, 0xFF]

end Bytes

/-! ## Keys: the two leading characters tell the kinds apart -/

theorem code_append_inj {k1 k2 : Kind} {x1 x2 : String}
    (h : k1.code ++ x1 = k2.code ++ x2) : k1 = k2 ∧ x1 = x2 := by
  have hd := congrArg String.data h
  simp only [String.data_append] at hd
  cases k1 <;> cases k2 <;> simp [Kind.code] at hd <;>
    exact ⟨rfl, String.ext hd⟩

theorem marker_ne_ballot (x y : String) : "00" ++ x ≠ "01" ++ y := fun h =>
  Kind.noConfusion (@code_append_inj .CastMarker .Ballot x y h).1

theorem ballot_ne_marker (x y : String) : "01" ++ x ≠ "00" ++ y := fun h =>
  Kind.noConfusion (@code_append_inj .Ballot .CastMarker x y h).1

/-! ## CastVote, case by case -/

/-- A successful `CastVote` read no ballot under `Index2`, and wrote the
ballot under `Index2` and then the marker under `Index1`. -/
theorem CastVote_success {J : Json B} {stub : Stub B} {w : World B} {b t : String}
    {r : VotingTokenRecord} (hres : GetVotingTokenFromChannel2 J stub t = .ok r)
    (hok : (CastVote J stub w b t).1 = none) :
    stub.getStateErr ("01" ++ r.ID) = none ∧ w ("01" ++ r.ID) = none ∧
    ∃ bj tj,
      J.marshalBallot ⟨b, hashWithSalt t r.Salt, "01" ++ r.ID⟩ = .ok bj ∧
      J.marshalTransaction ⟨hashWithSalt t r.Salt, "00" ++ r.ID, r.VCMSdSignature⟩ = .ok tj ∧
      stub.putStateErr ("01" ++ r.ID) = none ∧ stub.putStateErr ("00" ++ r.ID) = none ∧
      (CastVote J stub w b t).2 =
        Function.update (Function.update w ("01" ++ r.ID) (some bj)) ("00" ++ r.ID) (some tj) := by
  simp only [CastVote, hres, idExistsInChannel1, GetState, PutState] at hok ⊢
  cases hg : stub.getStateErr ("01" ++ r.ID) with
  | some e => simp [hg] at hok
  | none =>
    cases hw : w ("01" ++ r.ID) with
    | some v => simp [hg, hw] at hok
    | none =>
      cases hb : J.marshalBallot ⟨b, hashWithSalt t r.Salt, "01" ++ r.ID⟩ with
      | error e => simp [hg, hw, hb] at hok
      | ok bj =>
        cases hp : stub.putStateErr ("01" ++ r.ID) with
        | some e => simp [hg, hw, hb, hp] at hok
        | none =>
          cases ht : J.marshalTransaction
              ⟨hashWithSalt t r.Salt, "00" ++ r.ID, r.VCMSdSignature⟩ with
          | error e => simp [hg, hw, hb, hp, ht] at hok
          | ok tj =>
            cases hq : stub.putStateErr ("00" ++ r.ID) with
            | some e => simp [hg, hw, hb, hp, ht, hq] at hok
            | none => simp [hg, hw, hb, hp, ht, hq]

/-- With every step succeeding and no ballot under `Index2`, `CastVote` succeeds. -/
theorem CastVote_runs {J : Json B} {stub : Stub B} {w : World B} {b t : String}
    {r : VotingTokenRecord} {bj tj : B}
    (hres : GetVotingTokenFromChannel2 J stub t = .ok r)
    (hg : stub.getStateErr ("01" ++ r.ID) = none) (hw : w ("01" ++ r.ID) = none)
    (hb : J.marshalBallot ⟨b, hashWithSalt t r.Salt, "01" ++ r.ID⟩ = .ok bj)
    (ht : J.marshalTransaction ⟨hashWithSalt t r.Salt, "00" ++ r.ID, r.VCMSdSignature⟩ = .ok tj)
    (hp : stub.putStateErr ("01" ++ r.ID) = none) (hq : stub.putStateErr ("00" ++ r.ID) = none) :
    CastVote J stub w b t =
      (none, Function.update (Function.update w ("01" ++ r.ID) (some bj))
        ("00" ++ r.ID) (some tj)) := by
  simp [CastVote, hres, idExistsInChannel1, GetState, PutState, hg, hw, hb, ht, hp, hq]

/-- With a ballot read under `Index2`, `CastVote` refuses and writes nothing. -/
theorem CastVote_present {J : Json B} {stub : Stub B} {w : World B} {b t : String}
    {r : VotingTokenRecord} (hres : GetVotingTokenFromChannel2 J stub t = .ok r)
    (hg : stub.getStateErr ("01" ++ r.ID) = none) (hw : w ("01" ++ r.ID) ≠ none) :
    CastVote J stub w b t =
      (some ("a vote with ID " ++ ("01" ++ r.ID) ++ " has already been cast"), w) := by
  obtain ⟨v, hv⟩ := Option.ne_none_iff_exists'.mp hw
  simp [CastVote, hres, idExistsInChannel1, GetState, hg, hv]

/-- With the read of `Index2` failing, `CastVote` returns that error and writes nothing. -/
theorem CastVote_read_error {J : Json B} {stub : Stub B} {w : World B} {b t : String}
    {r : VotingTokenRecord} {e : GoError}
    (hres : GetVotingTokenFromChannel2 J stub t = .ok r)
    (hg : stub.getStateErr ("01" ++ r.ID) = some e) :
    CastVote J stub w b t = (some ("failed to read from world state: " ++ e), w) := by
  simp [CastVote, hres, idExistsInChannel1, GetState, hg]

/-! ## Two votes for one identity -/

/-- C1. For every world state, peers and identity records: when `t1` and `t2`
resolve to records with the same identity and `CastVote b1 t1` succeeds, a
following `CastVote b2 t2` on the resulting world fails, leaves that world as
it is, with the ballot `b1` still stored under `"01" + ID`, and, its read of
that key answering, fails with the already-cast error. -/
theorem CastVote_second_call_fails (J : Json B) (stub1 stub2 : Stub B) (w : World B)
    (b1 b2 t1 t2 : String) (r1 r2 : VotingTokenRecord)
    (h1 : GetVotingTokenFromChannel2 J stub1 t1 = .ok r1)
    (h2 : GetVotingTokenFromChannel2 J stub2 t2 = .ok r2)
    (hid : r1.ID = r2.ID)
    (hok : (CastVote J stub1 w b1 t1).1 = none) :
    (CastVote J stub2 (CastVote J stub1 w b1 t1).2 b2 t2).2 = (CastVote J stub1 w b1 t1).2 ∧
    (CastVote J stub2 (CastVote J stub1 w b1 t1).2 b2 t2).1 ≠ none ∧
    (stub2.getStateErr ("01" ++ r2.ID) = none →
      (CastVote J stub2 (CastVote J stub1 w b1 t1).2 b2 t2).1 =
        some ("a vote with ID " ++ ("01" ++ r2.ID) ++ " has already been cast")) ∧
    ∃ ballotJSON,
      J.marshalBallot ⟨b1, hashWithSalt t1 r1.Salt, "01" ++ r1.ID⟩ = .ok ballotJSON ∧
      (CastVote J stub2 (CastVote J stub1 w b1 t1).2 b2 t2).2 ("01" ++ r1.ID) =
        some ballotJSON := by
  obtain ⟨_, _, bj, tj, hb, _, _, _, hw1⟩ := CastVote_success h1 hok
  have hstored : (CastVote J stub1 w b1 t1).2 ("01" ++ r1.ID) = some bj := by
    rw [hw1, Function.update_noteq (ballot_ne_marker _ _), Function.update_same]
  have hpresent : (CastVote J stub1 w b1 t1).2 ("01" ++ r2.ID) ≠ none := by
    rw [← hid, hstored]; simp
  have hworld :
      (CastVote J stub2 (CastVote J stub1 w b1 t1).2 b2 t2).2 = (CastVote J stub1 w b1 t1).2 := by
    cases hg : stub2.getStateErr ("01" ++ r2.ID) with
    | none => rw [CastVote_present h2 hg hpresent]
    | some e => rw [CastVote_read_error h2 hg]
  refine ⟨hworld, ?_, ?_, bj, hb, ?_⟩
  · cases hg : stub2.getStateErr ("01" ++ r2.ID) with
    | none => rw [CastVote_present h2 hg hpresent]; simp
    | some e => rw [CastVote_read_error h2 hg]; simp
  · intro hg
    rw [CastVote_present h2 hg hpresent]
  · rw [hworld, hstored]

theorem CastVote_second_call_fails_witness :
    GetVotingTokenFromChannel2 docJson (peerOf recI1) "tf1" = .ok recI1 ∧
    (CastVote docJson (peerOf recI1) emptyWorld "yes" "tf1").1 = none ∧
    (CastVote docJson (peerOf recI1)
        (CastVote docJson (peerOf recI1) emptyWorld "yes" "tf1").2 "no" "tf1").1 =
      some "a vote with ID 01I1 has already been cast" ∧
    (CastVote docJson (peerOf recI1)
        (CastVote docJson (peerOf recI1) emptyWorld "yes" "tf1").2 "no" "tf1").2 "01I1" =
      some (.object [("ballot", "yes"), ("votingTokenHash", hashWithSalt "tf1" "s1"),
        ("id", "01I1")]) :=
  have h := CastVote_second_call_fails docJson (peerOf recI1) (peerOf recI1) emptyWorld
    "yes" "no" "tf1" "tf1" recI1 recI1 rfl rfl rfl rfl
  ⟨rfl, rfl, h.2.2.1 rfl, (congrFun h.1 "01I1").trans rfl⟩

/-! ## The key on which CastVote checks -/

/-- C2, as stated, fails: with the marker key `"00I1"` present and the ballot
key `"01I1"` absent, `CastVote` for identity `I1` succeeds and writes a new
marker over the one that was stored. -/
theorem CastVote_marker_present_succeeds :
    markedWorld "00I1" =
      some (.object [("vcmsTokenHash", "h0"), ("id", "00I1"), ("vcmsdSignature", "sig0")]) ∧
    (CastVote docJson (peerOf recI1) markedWorld "no" "tf1").1 = none ∧
    (CastVote docJson (peerOf recI1) markedWorld "no" "tf1").2 "00I1" =
      some (.object [("vcmsTokenHash", hashWithSalt "tf1" "s1"), ("id", "00I1"),
        ("vcmsdSignature", "sig1")]) ∧
    (CastVote docJson (peerOf recI1) markedWorld "no" "tf1").2 "00I1" ≠ markedWorld "00I1" := by
  refine ⟨rfl, rfl, rfl, ?_⟩
  have h1 : (CastVote docJson (peerOf recI1) markedWorld "no" "tf1").2 "00I1" =
      some (.object [("vcmsTokenHash", hashWithSalt "tf1" "s1"), ("id", "00I1"),
        ("vcmsdSignature", "sig1")]) := rfl
  have h2 : markedWorld "00I1" =
      some (.object [("vcmsTokenHash", "h0"), ("id", "00I1"), ("vcmsdSignature", "sig0")]) := rfl
  rw [h1, h2]
  simp

/-- C2, amended. The check of `CastVote` is made on the ballot key
`"01" + ID`, before any write: when that key is read and holds a value,
`CastVote` fails with the already-cast error and writes nothing; and a
successful `CastVote` found the ballot key absent, so it never writes over a
ballot. -/
theorem CastVote_checks_ballot_key (J : Json B) (stub : Stub B) (w : World B)
    (b t : String) (r : VotingTokenRecord)
    (hres : GetVotingTokenFromChannel2 J stub t = .ok r) :
    (stub.getStateErr ("01" ++ r.ID) = none → w ("01" ++ r.ID) ≠ none →
      CastVote J stub w b t =
        (some ("a vote with ID " ++ ("01" ++ r.ID) ++ " has already been cast"), w)) ∧
    ((CastVote J stub w b t).1 = none → w ("01" ++ r.ID) = none) :=
  ⟨fun hg hw => CastVote_present hres hg hw, fun hok => (CastVote_success hres hok).2.1⟩

theorem CastVote_checks_ballot_key_witness :
    GetVotingTokenFromChannel2 docJson (peerOf recI1) "tf1" = .ok recI1 ∧
    (CastVote docJson (peerOf recI1) emptyWorld "yes" "tf1").1 = none ∧
    emptyWorld "01I1" = none ∧
    (CastVote docJson (peerOf recI1) emptyWorld "yes" "tf1").2 "01I1" ≠ none ∧
    CastVote docJson (peerOf recI1)
        (CastVote docJson (peerOf recI1) emptyWorld "yes" "tf1").2 "no" "tf1" =
      (some "a vote with ID 01I1 has already been cast",
        (CastVote docJson (peerOf recI1) emptyWorld "yes" "tf1").2) :=
  have hne : (CastVote docJson (peerOf recI1) emptyWorld "yes" "tf1").2 "01I1" ≠ none :=
    fun h => Option.noConfusion ((rfl : _ = some (Doc.object
      [("ballot", "yes"), ("votingTokenHash", hashWithSalt "tf1" "s1"), ("id", "01I1")])).symm.trans h)
  ⟨rfl, rfl,
    (CastVote_checks_ballot_key docJson (peerOf recI1) emptyWorld "yes" "tf1" recI1 rfl).2 rfl,
    hne,
    (CastVote_checks_ballot_key docJson (peerOf recI1)
      (CastVote docJson (peerOf recI1) emptyWorld "yes" "tf1").2 "no" "tf1" recI1 rfl).1 rfl hne⟩

/-! ## PostVoting, case by case -/

/-- A successful `PostVoting` read no reveal under `Index3` and wrote one there. -/
theorem PostVoting_success {J : Json B} {stub : Stub B} {w : World B} {t v : String}
    {r : VotingTokenRecord} (hres : GetVotingTokenFromChannel2 J stub t = .ok r)
    (hok : (PostVoting J stub w t v).1 = none) :
    stub.getStateErr ("10" ++ r.ID) = none ∧ w ("10" ++ r.ID) = none ∧
    ∃ pj,
      J.marshalPostVoting ⟨hashWithSalt r.VcmsTokenHash r.Salt, v, "10" ++ r.ID⟩ = .ok pj ∧
      stub.putStateErr ("10" ++ r.ID) = none ∧
      (PostVoting J stub w t v).2 = Function.update w ("10" ++ r.ID) (some pj) := by
  simp only [PostVoting, hres, idExistsInChannel1, GetState, PutState] at hok ⊢
  cases hg : stub.getStateErr ("10" ++ r.ID) with
  | some e => simp [hg] at hok
  | none =>
    cases hw : w ("10" ++ r.ID) with
    | some v => simp [hg, hw] at hok
    | none =>
      cases hb : J.marshalPostVoting ⟨hashWithSalt r.VcmsTokenHash r.Salt, v, "10" ++ r.ID⟩ with
      | error e => simp [hg, hw, hb] at hok
      | ok pj =>
        cases hp : stub.putStateErr ("10" ++ r.ID) with
        | some e => simp [hg, hw, hb, hp] at hok
        | none => simp [hg, hw, hb, hp]

/-- With every step succeeding and no reveal under `Index3`, `PostVoting` succeeds. -/
theorem PostVoting_runs {J : Json B} {stub : Stub B} {w : World B} {t v : String}
    {r : VotingTokenRecord} {pj : B}
    (hres : GetVotingTokenFromChannel2 J stub t = .ok r)
    (hg : stub.getStateErr ("10" ++ r.ID) = none) (hw : w ("10" ++ r.ID) = none)
    (hb : J.marshalPostVoting ⟨hashWithSalt r.VcmsTokenHash r.Salt, v, "10" ++ r.ID⟩ = .ok pj)
    (hp : stub.putStateErr ("10" ++ r.ID) = none) :
    PostVoting J stub w t v = (none, Function.update w ("10" ++ r.ID) (some pj)) := by
  simp [PostVoting, hres, idExistsInChannel1, GetState, PutState, hg, hw, hb, hp]

/-- With a reveal read under `Index3`, `PostVoting` refuses and writes nothing. -/
theorem PostVoting_present {J : Json B} {stub : Stub B} {w : World B} {t v : String}
    {r : VotingTokenRecord} (hres : GetVotingTokenFromChannel2 J stub t = .ok r)
    (hg : stub.getStateErr ("10" ++ r.ID) = none) (hw : w ("10" ++ r.ID) ≠ none) :
    PostVoting J stub w t v =
      (some ("a VCMS hash token record with ID " ++ ("10" ++ r.ID) ++ " already exists"), w) := by
  obtain ⟨x, hx⟩ := Option.ne_none_iff_exists'.mp hw
  simp [PostVoting, hres, idExistsInChannel1, GetState, hg, hx]

/-- With the read of `Index3` failing, `PostVoting` returns that error and writes nothing. -/
theorem PostVoting_read_error {J : Json B} {stub : Stub B} {w : World B} {t v : String}
    {r : VotingTokenRecord} {e : GoError}
    (hres : GetVotingTokenFromChannel2 J stub t = .ok r)
    (hg : stub.getStateErr ("10" ++ r.ID) = some e) :
    PostVoting J stub w t v = (some ("failed to read from world state: " ++ e), w) := by
  simp [PostVoting, hres, idExistsInChannel1, GetState, hg]

/-! ## The queries, case by case -/

theorem keptMarker_eq_some {J : Json B} {stub : Stub B} {w : World B} {r : VotingTokenRecord}
    {t : String} {tx : TransactionType1} :
    keptMarker J stub w r.ID (hashWithSalt t r.Salt) = some tx ↔
      MarkerMatched J stub w r t tx := by
  unfold keptMarker MarkerMatched
  constructor
  · intro h
    split at h
    · rename_i bs hbs
      split at h
      · rename_i tx1 htx
        split at h
        · rename_i heq
          cases h
          exact ⟨bs, hbs, htx, heq⟩
        · cases h
      · cases h
    · cases h
  · rintro ⟨bs, hbs, htx, heq⟩
    simp [hbs, htx, heq]

theorem keptBallot_eq_some {J : Json B} {stub : Stub B} {w : World B} {r : VotingTokenRecord}
    {t : String} {bl : BallotRecord} :
    keptBallot J stub w r.ID (hashWithSalt t r.Salt) = some bl ↔
      BallotMatched J stub w r t bl := by
  unfold keptBallot BallotMatched
  constructor
  · intro h
    split at h
    · rename_i bs hbs
      split at h
      · rename_i bl1 hbl
        split at h
        · rename_i heq
          cases h
          exact ⟨bs, hbs, hbl, heq⟩
        · cases h
      · cases h
    · cases h
  · rintro ⟨bs, hbs, hbl, heq⟩
    simp [hbs, hbl, heq]

/-- `QueryCastVote` after resolution: it fails when it keeps neither record,
and otherwise answers with status true and the records kept. -/
theorem QueryCastVote_eq {J : Json B} {stub : Stub B} {w : World B} {t : String}
    {r : VotingTokenRecord} (hres : GetVotingTokenFromChannel2 J stub t = .ok r) :
    QueryCastVote J stub w t =
      (match keptMarker J stub w r.ID (hashWithSalt t r.Salt),
             keptBallot J stub w r.ID (hashWithSalt t r.Salt) with
       | none, none => .error ("no CastVote transactions found for votingTokenHash " ++ t)
       | m, b => .ok ⟨t, hashWithSalt t r.Salt, true, m, b⟩, w) := by
  simp only [QueryCastVote, hres, keptMarker, keptBallot]
  rcases hm : GetState stub w ("00" ++ r.ID) with e | _ | bs <;>
  rcases hb : GetState stub w ("01" ++ r.ID) with e' | _ | bs' <;> simp
  · cases hub : J.unmarshalBallot bs' with
    | error e => simp
    | ok bl => by_cases hh : bl.VotingTokenHash = hashWithSalt t r.Salt <;> simp [hh]
  · cases hub : J.unmarshalBallot bs' with
    | error e => simp
    | ok bl => by_cases hh : bl.VotingTokenHash = hashWithSalt t r.Salt <;> simp [hh]
  · cases hum : J.unmarshalTransaction bs with
    | error e => simp
    | ok tx => by_cases hh : tx.VcmsTokenHash = hashWithSalt t r.Salt <;> simp [hh]
  · cases hum : J.unmarshalTransaction bs with
    | error e => simp
    | ok tx => by_cases hh : tx.VcmsTokenHash = hashWithSalt t r.Salt <;> simp [hh]
  · cases hum : J.unmarshalTransaction bs with
    | error e =>
      cases hub : J.unmarshalBallot bs' with
      | error e => simp
      | ok bl => by_cases hh : bl.VotingTokenHash = hashWithSalt t r.Salt <;> simp [hh]
    | ok tx =>
      cases hub : J.unmarshalBallot bs' with
      | error e => by_cases hh : tx.VcmsTokenHash = hashWithSalt t r.Salt <;> simp [hh]
      | ok bl =>
        by_cases hh : tx.VcmsTokenHash = hashWithSalt t r.Salt <;>
        by_cases hh2 : bl.VotingTokenHash = hashWithSalt t r.Salt <;> simp [hh, hh2]

/-- `QueryPostVoting` after resolution, on what the read of `"10" + ID` gives. -/
theorem QueryPostVoting_eq {J : Json B} {stub : Stub B} {w : World B} {t : String}
    {r : VotingTokenRecord} (hres : GetVotingTokenFromChannel2 J stub t = .ok r) :
    QueryPostVoting J stub w t =
      (match GetState stub w ("10" ++ r.ID) with
       | .ok (some bs) =>
         match J.unmarshalPostVoting bs with
         | .error e => .error ("failed to unmarshal post voting record: " ++ e)
         | .ok pv =>
           if pv.HashedVcmsToken = hashWithSalt r.VcmsTokenHash r.Salt then
             .ok ⟨t, hashWithSalt r.VcmsTokenHash r.Salt, true, some pv⟩
           else
             .error ("no matching PostVoting transactions found for votingTokenHash " ++ t)
       | _ => .error ("no PostVoting transactions found for votingTokenHash " ++ t), w) := by
  simp only [QueryPostVoting, hres]
  rcases hg : GetState stub w ("10" ++ r.ID) with e | _ | bs <;> simp
  cases hu : J.unmarshalPostVoting bs with
  | error e => simp
  | ok pv => by_cases hh : pv.HashedVcmsToken = hashWithSalt r.VcmsTokenHash r.Salt <;> simp [hh]

/-- `QueryPostVoting` on a reveal that is read, decodes and matches. -/
theorem QueryPostVoting_matched {J : Json B} {stub : Stub B} {w : World B} {t : String}
    {r : VotingTokenRecord} {bs : B} {pv : PostVotingRecord}
    (hres : GetVotingTokenFromChannel2 J stub t = .ok r)
    (hget : GetState stub w ("10" ++ r.ID) = .ok (some bs))
    (hu : J.unmarshalPostVoting bs = .ok pv)
    (hh : pv.HashedVcmsToken = hashWithSalt r.VcmsTokenHash r.Salt) :
    QueryPostVoting J stub w t =
      (.ok ⟨t, hashWithSalt r.VcmsTokenHash r.Salt, true, some pv⟩, w) := by
  rw [QueryPostVoting_eq hres, hget]
  simp [hu, hh]

/-! ## The codec over `Doc` reads back what it wrote -/

theorem docJson_ballot (rec : BallotRecord) (bs : Doc)
    (h : docJson.marshalBallot rec = .ok bs) : docJson.unmarshalBallot bs = .ok rec := by
  cases rec
  simp only [docJson, Except.ok.injEq] at h
  subst h
  simp [docJson, Doc.field, List.lookup]

theorem docJson_postVoting (rec : PostVotingRecord) (bs : Doc)
    (h : docJson.marshalPostVoting rec = .ok bs) : docJson.unmarshalPostVoting bs = .ok rec := by
  cases rec
  simp only [docJson, Except.ok.injEq] at h
  subst h
  simp [docJson, Doc.field, List.lookup]

/-! ## Writing, then asking -/

/-- Round trip of a vote on Lean strings, where every ballot is UTF-8 text:
for every world state, ballot `b` and token `t` resolving to the same record
`r` in both calls, with the JSON of the ballot record decoding to that record
and the read of the ballot key answering, when
`CastVote b t` succeeds, `QueryCastVote t` on the resulting world succeeds
with status true, echoes `t` and the fingerprint `hashWithSalt t r.Salt`, and
carries the ballot record with ballot `b` and that fingerprint. -/
theorem QueryCastVote_after_CastVote (J : Json B) (stub1 stub2 : Stub B) (w : World B)
    (b t : String) (r : VotingTokenRecord)
    (h1 : GetVotingTokenFromChannel2 J stub1 t = .ok r)
    (h2 : GetVotingTokenFromChannel2 J stub2 t = .ok r)
    (hrt : ∀ bs, J.marshalBallot ⟨b, hashWithSalt t r.Salt, "01" ++ r.ID⟩ = .ok bs →
      J.unmarshalBallot bs = .ok ⟨b, hashWithSalt t r.Salt, "01" ++ r.ID⟩)
    (hread : stub2.getStateErr ("01" ++ r.ID) = none)
    (hok : (CastVote J stub1 w b t).1 = none) :
    ∃ resp, (QueryCastVote J stub2 (CastVote J stub1 w b t).2 t).1 = .ok resp ∧
      resp.Status = true ∧
      resp.Ballot = some ⟨b, hashWithSalt t r.Salt, "01" ++ r.ID⟩ ∧
      resp.VotingTokenHash = t ∧ resp.HashedVotingToken = hashWithSalt t r.Salt := by
  obtain ⟨_, _, bj, tj, hb, _, _, _, hw1⟩ := CastVote_success h1 hok
  have hstored : (CastVote J stub1 w b t).2 ("01" ++ r.ID) = some bj := by
    rw [hw1, Function.update_noteq (ballot_ne_marker _ _), Function.update_same]
  have hkept : keptBallot J stub2 (CastVote J stub1 w b t).2 r.ID (hashWithSalt t r.Salt) =
      some ⟨b, hashWithSalt t r.Salt, "01" ++ r.ID⟩ :=
    keptBallot_eq_some.mpr ⟨bj, by simp [GetState, hread, hstored], hrt bj hb, rfl⟩
  rw [QueryCastVote_eq h2, hkept]
  cases keptMarker J stub2 (CastVote J stub1 w b t).2 r.ID (hashWithSalt t r.Salt) <;>
    exact ⟨_, rfl, rfl, rfl, rfl, rfl⟩

theorem QueryCastVote_after_CastVote_witness :
    GetVotingTokenFromChannel2 docJson (peerOf recI1) "tf1" = .ok recI1 ∧
    (CastVote docJson (peerOf recI1) emptyWorld "yes" "tf1").1 = none ∧
    ∃ resp, (QueryCastVote docJson (peerOf recI1)
        (CastVote docJson (peerOf recI1) emptyWorld "yes" "tf1").2 "tf1").1 = .ok resp ∧
      resp.Status = true ∧
      resp.Ballot = some ⟨"yes", hashWithSalt "tf1" "s1", "01I1"⟩ ∧
      resp.VotingTokenHash = "tf1" ∧ resp.HashedVotingToken = hashWithSalt "tf1" "s1" :=
  ⟨rfl, rfl,
    QueryCastVote_after_CastVote docJson (peerOf recI1) (peerOf recI1) emptyWorld "yes" "tf1"
      recI1 rfl rfl (docJson_ballot _) rfl rfl⟩

/-- Round trip of a reveal on Lean strings, where every token is UTF-8 text:
for every world state, token `t` resolving to
the same record `r` in both calls and revealed token `v`, with the JSON of the
reveal record decoding to that record and the read of the reveal key
answering, when `PostVoting t v` succeeds, `QueryPostVoting t` on the
resulting world succeeds with status true and the reveal record whose
`VotingToken` is exactly `v`. -/
theorem QueryPostVoting_after_PostVoting (J : Json B) (stub1 stub2 : Stub B) (w : World B)
    (t v : String) (r : VotingTokenRecord)
    (h1 : GetVotingTokenFromChannel2 J stub1 t = .ok r)
    (h2 : GetVotingTokenFromChannel2 J stub2 t = .ok r)
    (hrt : ∀ bs,
      J.marshalPostVoting ⟨hashWithSalt r.VcmsTokenHash r.Salt, v, "10" ++ r.ID⟩ = .ok bs →
      J.unmarshalPostVoting bs = .ok ⟨hashWithSalt r.VcmsTokenHash r.Salt, v, "10" ++ r.ID⟩)
    (hread : stub2.getStateErr ("10" ++ r.ID) = none)
    (hok : (PostVoting J stub1 w t v).1 = none) :
    (QueryPostVoting J stub2 (PostVoting J stub1 w t v).2 t).1 =
      .ok { VotingTokenHash := t, HashedVcmsToken := hashWithSalt r.VcmsTokenHash r.Salt,
            Status := true,
            PostVoting := some ⟨hashWithSalt r.VcmsTokenHash r.Salt, v, "10" ++ r.ID⟩ } := by
  obtain ⟨_, _, pj, hp, _, hw1⟩ := PostVoting_success h1 hok
  have hstored : (PostVoting J stub1 w t v).2 ("10" ++ r.ID) = some pj := by
    rw [hw1, Function.update_same]
  rw [QueryPostVoting_eq h2]
  simp [GetState, hread, hstored, hrt pj hp]

theorem QueryPostVoting_after_PostVoting_witness :
    GetVotingTokenFromChannel2 docJson (peerOf recI1) "tf1" = .ok recI1 ∧
    (PostVoting docJson (peerOf recI1) emptyWorld "tf1" "plaintext-token-123").1 = none ∧
    (QueryPostVoting docJson (peerOf recI1)
        (PostVoting docJson (peerOf recI1) emptyWorld "tf1" "plaintext-token-123").2 "tf1").1 =
      .ok { VotingTokenHash := "tf1", HashedVcmsToken := hashWithSalt "tf1" "s1", Status := true,
            PostVoting := some ⟨hashWithSalt "tf1" "s1", "plaintext-token-123", "10I1"⟩ } :=
  ⟨rfl, rfl,
    QueryPostVoting_after_PostVoting docJson (peerOf recI1) (peerOf recI1) emptyWorld "tf1"
      "plaintext-token-123" recI1 rfl rfl (docJson_postVoting _) rfl rfl⟩

/-! ## One reveal for one identity -/

/-- C5. `PostVoting` is at most once for an identity: for every world state in
which the reveal key `"10" + ID` is present, as it is after a successful
`PostVoting` for that identity, `PostVoting` with any token resolving to `ID`
and any revealed token fails, with the already-exists error when its read of
the key answers, and leaves the world as it is, so that every later
`QueryPostVoting` answers as it did before. -/
theorem PostVoting_at_most_once (J : Json B) (stub : Stub B) (w : World B)
    (t v : String) (r : VotingTokenRecord)
    (hres : GetVotingTokenFromChannel2 J stub t = .ok r)
    (hpresent : w ("10" ++ r.ID) ≠ none) :
    (PostVoting J stub w t v).2 = w ∧
    (PostVoting J stub w t v).1 ≠ none ∧
    (stub.getStateErr ("10" ++ r.ID) = none →
      (PostVoting J stub w t v).1 =
        some ("a VCMS hash token record with ID " ++ ("10" ++ r.ID) ++ " already exists")) ∧
    (∀ (stub2 : Stub B) (t2 : String),
      QueryPostVoting J stub2 (PostVoting J stub w t v).2 t2 = QueryPostVoting J stub2 w t2) ∧
    (∀ (stub0 : Stub B) (w0 : World B) (t0 v0 : String) (r0 : VotingTokenRecord),
      GetVotingTokenFromChannel2 J stub0 t0 = .ok r0 → r0.ID = r.ID →
      (PostVoting J stub0 w0 t0 v0).1 = none →
      (PostVoting J stub0 w0 t0 v0).2 ("10" ++ r.ID) ≠ none) := by
  have hworld : (PostVoting J stub w t v).2 = w := by
    cases hg : stub.getStateErr ("10" ++ r.ID) with
    | none => rw [PostVoting_present hres hg hpresent]
    | some e => rw [PostVoting_read_error hres hg]
  refine ⟨hworld, ?_, ?_, ?_, ?_⟩
  · cases hg : stub.getStateErr ("10" ++ r.ID) with
    | none => rw [PostVoting_present hres hg hpresent]; simp
    | some e => rw [PostVoting_read_error hres hg]; simp
  · intro hg
    rw [PostVoting_present hres hg hpresent]
  · intro stub2 t2
    rw [hworld]
  · intro stub0 w0 t0 v0 r0 h0 hid hok
    obtain ⟨_, _, pj, _, _, hw1⟩ := PostVoting_success h0 hok
    rw [hw1, hid, Function.update_same]
    simp

theorem PostVoting_at_most_once_witness :
    GetVotingTokenFromChannel2 docJson (peerOf recI1) "tf1" = .ok recI1 ∧
    (PostVoting docJson (peerOf recI1) emptyWorld "tf1" "plaintext-token-123").1 = none ∧
    (PostVoting docJson (peerOf recI1)
        (PostVoting docJson (peerOf recI1) emptyWorld "tf1" "plaintext-token-123").2
        "tf1" "another-token").1 =
      some "a VCMS hash token record with ID 10I1 already exists" ∧
    (QueryPostVoting docJson (peerOf recI1)
        (PostVoting docJson (peerOf recI1)
          (PostVoting docJson (peerOf recI1) emptyWorld "tf1" "plaintext-token-123").2
          "tf1" "another-token").2 "tf1").1 =
      .ok { VotingTokenHash := "tf1", HashedVcmsToken := hashWithSalt "tf1" "s1", Status := true,
            PostVoting := some ⟨hashWithSalt "tf1" "s1", "plaintext-token-123", "10I1"⟩ } :=
  have hpresent : (PostVoting docJson (peerOf recI1) emptyWorld "tf1" "plaintext-token-123").2
      ("10" ++ recI1.ID) ≠ none :=
    fun h => Option.noConfusion ((rfl : _ = some (Doc.object
      [("hashedVcmsToken", hashWithSalt "tf1" "s1"), ("votingToken", "plaintext-token-123"),
        ("id", "10I1")])).symm.trans h)
  have h := PostVoting_at_most_once docJson (peerOf recI1)
    (PostVoting docJson (peerOf recI1) emptyWorld "tf1" "plaintext-token-123").2
    "tf1" "another-token" recI1 rfl hpresent
  have hq : QueryPostVoting docJson (peerOf recI1)
      (PostVoting docJson (peerOf recI1) emptyWorld "tf1" "plaintext-token-123").2 "tf1" =
      (.ok { VotingTokenHash := "tf1", HashedVcmsToken := hashWithSalt "tf1" "s1",
             Status := true,
             PostVoting := some ⟨hashWithSalt "tf1" "s1", "plaintext-token-123", "10I1"⟩ },
        (PostVoting docJson (peerOf recI1) emptyWorld "tf1" "plaintext-token-123").2) :=
    QueryPostVoting_matched (r := recI1) rfl rfl rfl rfl
  ⟨rfl, rfl, h.2.2.1 rfl,
    (congrArg Prod.fst (h.2.2.2.1 (peerOf recI1) "tf1")).trans (congrArg Prod.fst hq)⟩

/-! ## The keys are injective -/

/-- C6. The key of the cast marker is `"00" + ID`, of the ballot `"01" + ID`,
of the reveal `"10" + ID`, and the encoding is injective: equal keys come from
the same kind and the same identity, for all identities. -/
theorem compositeKey_injective (k1 k2 : Kind) (x1 x2 : String) :
    (compositeKey .CastMarker x1 = "00" ++ x1 ∧ compositeKey .Ballot x1 = "01" ++ x1 ∧
      compositeKey .PostVotingReveal x1 = "10" ++ x1) ∧
    (compositeKey k1 x1 = compositeKey k2 x2 → k1 = k2 ∧ x1 = x2) :=
  ⟨⟨rfl, rfl, rfl⟩, fun h => code_append_inj h⟩

theorem compositeKey_injective_witness :
    compositeKey .Ballot "I1" = compositeKey .Ballot "I1" ∧
    (Kind.Ballot = Kind.Ballot ∧ "I1" = "I1") ∧
    compositeKey .CastMarker "I1" ≠ compositeKey .Ballot "I1" :=
  ⟨rfl, (compositeKey_injective .Ballot .Ballot "I1" "I1").2 rfl,
    fun h => Kind.noConfusion ((compositeKey_injective .CastMarker .Ballot "I1" "I1").2 h).1⟩

/-! ## The empty identity -/

/-- C7, as stated, fails: when the resolver returns a record whose identity is
the empty string, `CastVote` and `PostVoting` succeed, and store their records
under the bare keys `"01"`, `"00"` and `"10"`. -/
theorem empty_identity_is_stored :
    GetVotingTokenFromChannel2 docJson (peerOf recEmpty) "tf0" = .ok recEmpty ∧
    recEmpty.ID = "" ∧
    (CastVote docJson (peerOf recEmpty) emptyWorld "yes" "tf0").1 = none ∧
    (CastVote docJson (peerOf recEmpty) emptyWorld "yes" "tf0").2 "01" =
      some (.object [("ballot", "yes"), ("votingTokenHash", hashWithSalt "tf0" "s0"),
        ("id", "01")]) ∧
    (CastVote docJson (peerOf recEmpty) emptyWorld "yes" "tf0").2 "00" =
      some (.object [("vcmsTokenHash", hashWithSalt "tf0" "s0"), ("id", "00"),
        ("vcmsdSignature", "sig0")]) ∧
    (PostVoting docJson (peerOf recEmpty) emptyWorld "tf0" "token-0").1 = none ∧
    (PostVoting docJson (peerOf recEmpty) emptyWorld "tf0" "token-0").2 "10" =
      some (.object [("hashedVcmsToken", hashWithSalt "tf0" "s0"), ("votingToken", "token-0"),
        ("id", "10")]) :=
  ⟨rfl, rfl, rfl, rfl, rfl, rfl, rfl⟩

/-- C7, amended. No identity is refused: the keys are built for every
identity, the empty one included, and when the resolver returns a record
whose identity is the empty string, `CastVote` succeeds exactly when nothing
is read under `"01"` and the two records are marshalled and written, under
`"01"` and `"00"`, and `PostVoting` exactly when nothing is read under `"10"`
and the record is marshalled and written there. -/
theorem empty_identity_runs (J : Json B) (stub : Stub B) (w : World B)
    (b t v : String) (r : VotingTokenRecord)
    (hres : GetVotingTokenFromChannel2 J stub t = .ok r) (hid : r.ID = "") :
    (compositeKey .CastMarker r.ID = "00" ∧ compositeKey .Ballot r.ID = "01" ∧
      compositeKey .PostVotingReveal r.ID = "10") ∧
    ((CastVote J stub w b t).1 = none ↔
      stub.getStateErr "01" = none ∧ w "01" = none ∧
      stub.putStateErr "01" = none ∧ stub.putStateErr "00" = none ∧
      ∃ bj tj, J.marshalBallot ⟨b, hashWithSalt t r.Salt, "01"⟩ = .ok bj ∧
        J.marshalTransaction ⟨hashWithSalt t r.Salt, "00", r.VCMSdSignature⟩ = .ok tj ∧
        (CastVote J stub w b t).2 =
          Function.update (Function.update w "01" (some bj)) "00" (some tj)) ∧
    ((PostVoting J stub w t v).1 = none ↔
      stub.getStateErr "10" = none ∧ w "10" = none ∧ stub.putStateErr "10" = none ∧
      ∃ pj, J.marshalPostVoting ⟨hashWithSalt r.VcmsTokenHash r.Salt, v, "10"⟩ = .ok pj ∧
        (PostVoting J stub w t v).2 = Function.update w "10" (some pj)) := by
  have e00 : "00" ++ r.ID = "00" := by rw [hid]; rfl
  have e01 : "01" ++ r.ID = "01" := by rw [hid]; rfl
  have e10 : "10" ++ r.ID = "10" := by rw [hid]; rfl
  refine ⟨⟨e00, e01, e10⟩, ⟨fun hok => ?_, ?_⟩, ⟨fun hok => ?_, ?_⟩⟩
  · have h := CastVote_success hres hok
    rw [e00, e01] at h
    obtain ⟨hg, hw, bj, tj, hb, ht, hp, hq, hw1⟩ := h
    exact ⟨hg, hw, hp, hq, bj, tj, hb, ht, hw1⟩
  · rintro ⟨hg, hw, hp, hq, bj, tj, hb, ht, -⟩
    rw [← e00, ← e01] at *
    rw [CastVote_runs hres hg hw hb ht hp hq]
  · have h := PostVoting_success hres hok
    rw [e10] at h
    obtain ⟨hg, hw, pj, hb, hp, hw1⟩ := h
    exact ⟨hg, hw, hp, pj, hb, hw1⟩
  · rintro ⟨hg, hw, hp, pj, hb, -⟩
    rw [← e10] at *
    rw [PostVoting_runs hres hg hw hb hp]

theorem empty_identity_runs_witness :
    GetVotingTokenFromChannel2 docJson (peerOf recEmpty) "tf0" = .ok recEmpty ∧
    recEmpty.ID = "" ∧
    (CastVote docJson (peerOf recEmpty) emptyWorld "yes" "tf0").1 = none ∧
    emptyWorld "01" = none ∧
    (PostVoting docJson (peerOf recEmpty) emptyWorld "tf0" "token-0").1 = none ∧
    emptyWorld "10" = none :=
  have h := empty_identity_runs docJson (peerOf recEmpty) emptyWorld "yes" "tf0" "token-0"
    recEmpty rfl rfl
  ⟨rfl, rfl, rfl, (h.2.1.mp rfl).2.1, rfl, (h.2.2.mp rfl).2.1⟩

/-! ## What QueryCastVote answers -/

/-- C8. After resolution of `t` to `r`, `QueryCastVote t` succeeds if and only
if the marker read under `"00" + ID` or the ballot read under `"01" + ID`
decodes to a record whose stored fingerprint is `hashWithSalt t r.Salt`; on
success the status is true, the response echoes `t` and that fingerprint, and
it carries the marker, respectively the ballot, exactly when that record was
read and matched; otherwise it fails with the not-found error. -/
theorem QueryCastVote_iff (J : Json B) (stub : Stub B) (w : World B) (t : String)
    (r : VotingTokenRecord) (hres : GetVotingTokenFromChannel2 J stub t = .ok r) :
    ((∃ resp, (QueryCastVote J stub w t).1 = .ok resp) ↔
      (∃ tx, MarkerMatched J stub w r t tx) ∨ (∃ bl, BallotMatched J stub w r t bl)) ∧
    (∀ resp, (QueryCastVote J stub w t).1 = .ok resp →
      resp.Status = true ∧ resp.VotingTokenHash = t ∧
      resp.HashedVotingToken = hashWithSalt t r.Salt ∧
      (∀ tx, resp.TransactionType1 = some tx ↔ MarkerMatched J stub w r t tx) ∧
      (∀ bl, resp.Ballot = some bl ↔ BallotMatched J stub w r t bl)) ∧
    ((¬ ∃ resp, (QueryCastVote J stub w t).1 = .ok resp) →
      (QueryCastVote J stub w t).1 =
        .error ("no CastVote transactions found for votingTokenHash " ++ t)) ∧
    (QueryCastVote J stub w t).2 = w := by
  have hm : ∀ tx, keptMarker J stub w r.ID (hashWithSalt t r.Salt) = some tx ↔
      MarkerMatched J stub w r t tx := fun tx => keptMarker_eq_some
  have hb : ∀ bl, keptBallot J stub w r.ID (hashWithSalt t r.Salt) = some bl ↔
      BallotMatched J stub w r t bl := fun bl => keptBallot_eq_some
  rw [QueryCastVote_eq hres]
  generalize keptMarker J stub w r.ID (hashWithSalt t r.Salt) = km at hm
  generalize keptBallot J stub w r.ID (hashWithSalt t r.Salt) = kb at hb
  cases km with
  | none =>
    cases kb with
    | none =>
      have hm1 : ∀ tx, ¬ MarkerMatched J stub w r t tx := fun tx h => by
        have := (hm tx).mpr h; cases this
      have hb1 : ∀ bl, ¬ BallotMatched J stub w r t bl := fun bl h => by
        have := (hb bl).mpr h; cases this
      simp [hm1, hb1]
    | some bl0 =>
      have hm1 : ∀ tx, ¬ MarkerMatched J stub w r t tx := fun tx h => by
        have := (hm tx).mpr h; cases this
      refine ⟨⟨fun _ => Or.inr ⟨bl0, (hb bl0).mp rfl⟩, fun _ => ⟨_, rfl⟩⟩, ?_, ?_, rfl⟩
      · intro resp h
        simp only [Except.ok.injEq] at h
        subst h
        exact ⟨rfl, rfl, rfl, fun tx => ⟨fun h => (by cases h), fun h => (hm1 tx h).elim⟩,
          fun bl => hb bl⟩
      · intro h
        exact (h ⟨_, rfl⟩).elim
  | some tx0 =>
    refine ⟨⟨fun _ => Or.inl ⟨tx0, (hm tx0).mp rfl⟩, fun _ => ⟨_, rfl⟩⟩, ?_, ?_, rfl⟩
    · intro resp h
      simp only [Except.ok.injEq] at h
      subst h
      exact ⟨rfl, rfl, rfl, fun tx => hm tx, fun bl => hb bl⟩
    · intro h
      exact (h ⟨_, rfl⟩).elim

theorem QueryCastVote_iff_witness :
    GetVotingTokenFromChannel2 docJson (peerOf recI1) "tf1" = .ok recI1 ∧
    (QueryCastVote docJson (peerOf recI1) emptyWorld "tf1").1 =
      .error "no CastVote transactions found for votingTokenHash tf1" ∧
    ((∃ resp, (QueryCastVote docJson (peerOf recI1) votedWorld "tf1").1 = .ok resp) ↔
      (∃ tx, MarkerMatched docJson (peerOf recI1) votedWorld recI1 "tf1" tx) ∨
      (∃ bl, BallotMatched docJson (peerOf recI1) votedWorld recI1 "tf1" bl)) ∧
    BallotMatched docJson (peerOf recI1) votedWorld recI1 "tf1"
      ⟨"yes", hashWithSalt "tf1" "s1", "01I1"⟩ :=
  ⟨rfl, rfl,
    (QueryCastVote_iff docJson (peerOf recI1) votedWorld "tf1" recI1 rfl).1,
    ⟨.object [("ballot", "yes"), ("votingTokenHash", hashWithSalt "tf1" "s1"), ("id", "01I1")],
      rfl, rfl, rfl⟩⟩

/-! ## What QueryPostVoting answers -/

theorem unmarshal_error_not_NotFound (e t : String) :
    ¬ NotFound t ("failed to unmarshal post voting record: " ++ e) := by
  rintro (h | h) <;>
  · have hd := congrArg String.data h
    simp [String.data_append] at hd

/-- C9, as stated, fails: with bytes that are not JSON under the reveal key
`"10I1"`, the record is present, yet `QueryPostVoting` neither answers with
status true nor fails with a not-found error: it fails with the error of the
decoding. -/
theorem QueryPostVoting_undecodable :
    GetVotingTokenFromChannel2 docJson (peerOf recI1) "tf1" = .ok recI1 ∧
    junkWorld "10I1" = some (.raw "?") ∧
    (QueryPostVoting docJson (peerOf recI1) junkWorld "tf1").1 =
      .error ("failed to unmarshal post voting record: " ++
        "invalid character looking for beginning of value") ∧
    ¬ NotFound "tf1" ("failed to unmarshal post voting record: " ++
        "invalid character looking for beginning of value") :=
  ⟨rfl, rfl, rfl, unmarshal_error_not_NotFound _ _⟩

/-- C9, amended. After resolution of `t` to `r`, `QueryPostVoting t` fails
with a not-found error exactly when no bytes are read under `"10" + ID` (the
key is absent, as on any world where no `PostVoting` wrote it, or its read
fails) or the bytes decode to a record whose `HashedVcmsToken` differs from
`hashWithSalt r.VcmsTokenHash r.Salt`; when the bytes do not decode it fails
with the error of the decoding; and when they decode to a record with that
fingerprint it answers with status true and that record. -/
theorem QueryPostVoting_cases (J : Json B) (stub : Stub B) (w : World B) (t : String)
    (r : VotingTokenRecord) (hres : GetVotingTokenFromChannel2 J stub t = .ok r) :
    ((∃ e, (QueryPostVoting J stub w t).1 = .error e ∧ NotFound t e) ↔
      (∀ bs, GetState stub w ("10" ++ r.ID) ≠ .ok (some bs)) ∨
      ∃ bs pv, GetState stub w ("10" ++ r.ID) = .ok (some bs) ∧
        J.unmarshalPostVoting bs = .ok pv ∧
        pv.HashedVcmsToken ≠ hashWithSalt r.VcmsTokenHash r.Salt) ∧
    (∀ bs e, GetState stub w ("10" ++ r.ID) = .ok (some bs) →
      J.unmarshalPostVoting bs = .error e →
      (QueryPostVoting J stub w t).1 =
        .error ("failed to unmarshal post voting record: " ++ e)) ∧
    (∀ bs pv, GetState stub w ("10" ++ r.ID) = .ok (some bs) →
      J.unmarshalPostVoting bs = .ok pv →
      pv.HashedVcmsToken = hashWithSalt r.VcmsTokenHash r.Salt →
      (QueryPostVoting J stub w t).1 =
        .ok ⟨t, hashWithSalt r.VcmsTokenHash r.Salt, true, some pv⟩) ∧
    (QueryPostVoting J stub w t).2 = w := by
  rw [QueryPostVoting_eq hres]
  rcases hg : GetState stub w ("10" ++ r.ID) with e | _ | bs
  · simp [NotFound]
  · simp [NotFound]
  · dsimp only
    cases hu : J.unmarshalPostVoting bs with
    | error e =>
      refine ⟨⟨?_, ?_⟩, ?_, ?_, rfl⟩
      · rintro ⟨e1, h1, hnf⟩
        simp only [Except.error.injEq] at h1
        subst h1
        exact (unmarshal_error_not_NotFound _ _ hnf).elim
      · rintro (h | ⟨bs1, pv, h1, h2, -⟩)
        · exact (h bs rfl).elim
        · simp only [Except.ok.injEq, Option.some.injEq] at h1
          subst h1
          rw [hu] at h2
          cases h2
      · intro bs1 e1 h1 h2
        simp only [Except.ok.injEq, Option.some.injEq] at h1
        subst h1
        rw [hu] at h2
        cases h2
        rfl
      · intro bs1 pv h1 h2
        simp only [Except.ok.injEq, Option.some.injEq] at h1
        subst h1
        rw [hu] at h2
        cases h2
    | ok pv =>
      by_cases hh : pv.HashedVcmsToken = hashWithSalt r.VcmsTokenHash r.Salt
      · simp [hh, hu]
        refine ⟨fun bs1 e h1 h2 => ?_, fun bs1 pv1 h1 h2 _ => ?_⟩
        · subst h1
          rw [hu] at h2
          cases h2
        · subst h1
          rw [hu] at h2
          cases h2
          rfl
      · simp [hh, hu, NotFound]
        refine ⟨fun bs1 e h1 h2 => ?_, fun bs1 pv1 h1 h2 => ?_⟩
        · subst h1
          rw [hu] at h2
          cases h2
        · subst h1
          rw [hu] at h2
          cases h2
          exact hh

theorem QueryPostVoting_cases_witness :
    GetVotingTokenFromChannel2 docJson (peerOf recI1) "tf1" = .ok recI1 ∧
    (∀ bs, GetState (peerOf recI1) emptyWorld ("10" ++ recI1.ID) ≠ .ok (some bs)) ∧
    (∃ e, (QueryPostVoting docJson (peerOf recI1) emptyWorld "tf1").1 = .error e ∧
      NotFound "tf1" e) ∧
    (QueryPostVoting docJson (peerOf recI1) junkWorld "tf1").1 =
      .error ("failed to unmarshal post voting record: " ++
        "invalid character looking for beginning of value") :=
  have habsent : ∀ bs, GetState (peerOf recI1) emptyWorld ("10" ++ recI1.ID) ≠ .ok (some bs) :=
    fun _ h => Option.noConfusion (Except.ok.inj h)
  ⟨rfl, habsent,
    (QueryPostVoting_cases docJson (peerOf recI1) emptyWorld "tf1" recI1 rfl).1.mpr
      (Or.inl habsent),
    (QueryPostVoting_cases docJson (peerOf recI1) junkWorld "tf1" recI1 rfl).2.1
      (.raw "?") _ rfl rfl⟩

/-! ## Errors of the storage -/

theorem keptMarker_read_error {J : Json B} {stub : Stub B} {w : World B} {id h : String}
    {e : GoError} (hg : stub.getStateErr ("00" ++ id) = some e) :
    keptMarker J stub w id h = none := by
  simp [keptMarker, GetState, hg]

theorem keptBallot_read_error {J : Json B} {stub : Stub B} {w : World B} {id h : String}
    {e : GoError} (hg : stub.getStateErr ("01" ++ id) = some e) :
    keptBallot J stub w id h = none := by
  simp [keptBallot, GetState, hg]

/-- C10, as stated, fails: with the marker and the ballot of identity `I1`
stored and the read of the marker key `"00I1"` failing, `QueryCastVote`
succeeds, with the ballot alone, as if no marker were stored. -/
theorem QueryCastVote_swallows_read_error :
    GetVotingTokenFromChannel2 docJson markerUnreadable "tf1" = .ok recI1 ∧
    votedWorld "00I1" =
      some (.object [("vcmsTokenHash", hashWithSalt "tf1" "s1"), ("id", "00I1"),
        ("vcmsdSignature", "sig1")]) ∧
    GetState markerUnreadable votedWorld "00I1" = .error "ledger unavailable" ∧
    (QueryCastVote docJson markerUnreadable votedWorld "tf1").1 =
      .ok { VotingTokenHash := "tf1", HashedVotingToken := hashWithSalt "tf1" "s1",
            Status := true, TransactionType1 := none,
            Ballot := some ⟨"yes", hashWithSalt "tf1" "s1", "01I1"⟩ } := by
  refine ⟨rfl, rfl, rfl, ?_⟩
  have hres : GetVotingTokenFromChannel2 docJson markerUnreadable "tf1" = .ok recI1 := rfl
  have hm : keptMarker docJson markerUnreadable votedWorld recI1.ID
      (hashWithSalt "tf1" recI1.Salt) = none :=
    keptMarker_read_error (e := "ledger unavailable") rfl
  have hb : keptBallot docJson markerUnreadable votedWorld recI1.ID
      (hashWithSalt "tf1" recI1.Salt) = some ⟨"yes", hashWithSalt "tf1" "s1", "01I1"⟩ :=
    keptBallot_eq_some.mpr
      ⟨.object [("ballot", "yes"), ("votingTokenHash", hashWithSalt "tf1" "s1"), ("id", "01I1")],
        rfl, rfl, rfl⟩
  rw [QueryCastVote_eq hres, hm, hb]
  rfl

/-- C10, amended. `CastVote`, `PostVoting` and `QueryPostVoting` fail whenever
a read or a write they make returns an error: when one of them succeeds, its
reads and writes all answered. `QueryCastVote` takes a failing read of the
marker key, or of the ballot key, for an absent record: the response then
carries no such record, and the query succeeds exactly when the other record
is read and matched. -/
theorem storage_errors (J : Json B) (stub : Stub B) (w : World B) (b t v : String)
    (r : VotingTokenRecord) (hres : GetVotingTokenFromChannel2 J stub t = .ok r) :
    ((CastVote J stub w b t).1 = none →
      stub.getStateErr ("01" ++ r.ID) = none ∧ stub.putStateErr ("01" ++ r.ID) = none ∧
      stub.putStateErr ("00" ++ r.ID) = none) ∧
    ((PostVoting J stub w t v).1 = none →
      stub.getStateErr ("10" ++ r.ID) = none ∧ stub.putStateErr ("10" ++ r.ID) = none) ∧
    ((∃ resp, (QueryPostVoting J stub w t).1 = .ok resp) →
      stub.getStateErr ("10" ++ r.ID) = none) ∧
    (∀ e, stub.getStateErr ("00" ++ r.ID) = some e →
      ((∃ resp, (QueryCastVote J stub w t).1 = .ok resp) ↔
        ∃ bl, BallotMatched J stub w r t bl) ∧
      ∀ resp, (QueryCastVote J stub w t).1 = .ok resp → resp.TransactionType1 = none) ∧
    (∀ e, stub.getStateErr ("01" ++ r.ID) = some e →
      ((∃ resp, (QueryCastVote J stub w t).1 = .ok resp) ↔
        ∃ tx, MarkerMatched J stub w r t tx) ∧
      ∀ resp, (QueryCastVote J stub w t).1 = .ok resp → resp.Ballot = none) := by
  refine ⟨fun hok => ?_, fun hok => ?_, ?_, fun e hg => ?_, fun e hg => ?_⟩
  · obtain ⟨hg, _, _, _, _, _, hp, hq, _⟩ := CastVote_success hres hok
    exact ⟨hg, hp, hq⟩
  · obtain ⟨hg, _, _, _, hp, _⟩ := PostVoting_success hres hok
    exact ⟨hg, hp⟩
  · rintro ⟨resp, h⟩
    rw [QueryPostVoting_eq hres] at h
    cases hg : stub.getStateErr ("10" ++ r.ID) with
    | none => rfl
    | some e => simp [GetState, hg] at h
  · have hb : ∀ bl, keptBallot J stub w r.ID (hashWithSalt t r.Salt) = some bl ↔
        BallotMatched J stub w r t bl := fun bl => keptBallot_eq_some
    rw [QueryCastVote_eq hres, keptMarker_read_error hg]
    generalize keptBallot J stub w r.ID (hashWithSalt t r.Salt) = kb at hb
    cases kb with
    | none =>
      have hb1 : ∀ bl, ¬ BallotMatched J stub w r t bl := fun bl h => by
        have := (hb bl).mpr h; cases this
      simp [hb1]
    | some bl0 =>
      refine ⟨⟨fun _ => ⟨bl0, (hb bl0).mp rfl⟩, fun _ => ⟨_, rfl⟩⟩, ?_⟩
      intro resp h
      simp only [Except.ok.injEq] at h
      subst h
      rfl
  · have hm : ∀ tx, keptMarker J stub w r.ID (hashWithSalt t r.Salt) = some tx ↔
        MarkerMatched J stub w r t tx := fun tx => keptMarker_eq_some
    rw [QueryCastVote_eq hres, keptBallot_read_error hg]
    generalize keptMarker J stub w r.ID (hashWithSalt t r.Salt) = km at hm
    cases km with
    | none =>
      have hm1 : ∀ tx, ¬ MarkerMatched J stub w r t tx := fun tx h => by
        have := (hm tx).mpr h; cases this
      simp [hm1]
    | some tx0 =>
      refine ⟨⟨fun _ => ⟨tx0, (hm tx0).mp rfl⟩, fun _ => ⟨_, rfl⟩⟩, ?_⟩
      intro resp h
      simp only [Except.ok.injEq] at h
      subst h
      rfl

theorem storage_errors_witness :
    GetVotingTokenFromChannel2 docJson markerUnreadable "tf1" = .ok recI1 ∧
    markerUnreadable.getStateErr ("00" ++ recI1.ID) = some "ledger unavailable" ∧
    ((∃ resp, (QueryCastVote docJson markerUnreadable votedWorld "tf1").1 = .ok resp) ↔
      ∃ bl, BallotMatched docJson markerUnreadable votedWorld recI1 "tf1" bl) ∧
    (CastVote docJson markerUnreadable emptyWorld "yes" "tf1").1 = none ∧
    markerUnreadable.getStateErr ("01" ++ recI1.ID) = none :=
  have h := storage_errors docJson markerUnreadable emptyWorld "yes" "tf1" "token-1" recI1 rfl
  ⟨rfl, rfl,
    ((storage_errors docJson markerUnreadable votedWorld "yes" "tf1" "token-1" recI1 rfl).2.2.2.1
      "ledger unavailable" rfl).1,
    rfl, (h.1 rfl).1⟩

/-! ## Resolution of the token -/

theorem CastVote_unresolved {J : Json B} {stub : Stub B} {w : World B} {b t : String}
    {e : GoError} (hres : GetVotingTokenFromChannel2 J stub t = .error e) :
    CastVote J stub w b t = (some ("failed to verify voting token: " ++ e), w) := by
  simp [CastVote, hres]

theorem PostVoting_unresolved {J : Json B} {stub : Stub B} {w : World B} {t v : String}
    {e : GoError} (hres : GetVotingTokenFromChannel2 J stub t = .error e) :
    PostVoting J stub w t v =
      (some ("failed to verify voting token from channel1: " ++ e), w) := by
  simp [PostVoting, hres]

/-- C11. The resolution of a token fails exactly when the response of the
other channel has a status different from 200 or a payload that does not
decode to an identity record, and otherwise returns the decoded record;
whenever it fails, `CastVote` and `PostVoting` fail with the token error and
leave the world as it is, and both queries fail. -/
theorem resolution_failure (J : Json B) (stub : Stub B) (w : World B) (b t v : String) :
    ((∃ e, GetVotingTokenFromChannel2 J stub t = .error e) ↔
      (stub.InvokeChaincode "voting6" ["GetVotingTokenRecord", t] "mychannel1").Status ≠ 200 ∨
      ∃ e, J.unmarshalToken
        (stub.InvokeChaincode "voting6" ["GetVotingTokenRecord", t] "mychannel1").Payload =
          .error e) ∧
    (∀ r, (stub.InvokeChaincode "voting6" ["GetVotingTokenRecord", t] "mychannel1").Status = 200 →
      J.unmarshalToken
        (stub.InvokeChaincode "voting6" ["GetVotingTokenRecord", t] "mychannel1").Payload =
          .ok r →
      GetVotingTokenFromChannel2 J stub t = .ok r) ∧
    (∀ e, GetVotingTokenFromChannel2 J stub t = .error e →
      CastVote J stub w b t = (some ("failed to verify voting token: " ++ e), w) ∧
      PostVoting J stub w t v =
        (some ("failed to verify voting token from channel1: " ++ e), w) ∧
      QueryCastVote J stub w t = (.error ("failed to retrieve voting token: " ++ e), w) ∧
      QueryPostVoting J stub w t = (.error ("failed to retrieve voting token: " ++ e), w)) := by
  refine ⟨?_, ?_, ?_⟩
  · simp only [GetVotingTokenFromChannel2]
    by_cases hs : (stub.InvokeChaincode "voting6" ["GetVotingTokenRecord", t]
        "mychannel1").Status = 200
    · cases hu : J.unmarshalToken
          (stub.InvokeChaincode "voting6" ["GetVotingTokenRecord", t] "mychannel1").Payload with
      | error e => simp [hs, hu]
      | ok r => simp [hs, hu]
    · simp [hs]
  · intro r hs hu
    simp [GetVotingTokenFromChannel2, hs, hu]
  · intro e hres
    refine ⟨CastVote_unresolved hres, PostVoting_unresolved hres, ?_, ?_⟩
    · simp [QueryCastVote, hres]
    · simp [QueryPostVoting, hres]

theorem resolution_failure_witness :
    (peerDown.InvokeChaincode "voting6" ["GetVotingTokenRecord", "tf1"] "mychannel1").Status
      ≠ 200 ∧
    GetVotingTokenFromChannel2 docJson peerDown "tf1" =
      .error "failed to retrieve voting token from channel2: token not found" ∧
    CastVote docJson peerDown emptyWorld "yes" "tf1" =
      (some ("failed to verify voting token: " ++
        "failed to retrieve voting token from channel2: token not found"), emptyWorld) ∧
    QueryCastVote docJson peerDown emptyWorld "tf1" =
      (.error ("failed to retrieve voting token: " ++
        "failed to retrieve voting token from channel2: token not found"), emptyWorld) :=
  have h := (resolution_failure docJson peerDown emptyWorld "yes" "tf1" "token-1").2.2
    "failed to retrieve voting token from channel2: token not found" rfl
  ⟨by decide, rfl, h.1, h.2.2.1⟩

/-! ## The writes of a transaction -/

/-- After resolution, the error of `CastVote` and the writes it makes depend
on the world only through what is stored under `"01" + ID`; the writes are
none, the ballot, or the ballot and then the marker. -/
theorem CastVote_shape {J : Json B} {stub : Stub B} {b t : String} {r : VotingTokenRecord}
    (w : World B) (hres : GetVotingTokenFromChannel2 J stub t = .ok r) :
    ∃ (e : Option GoError) (ups : World B → World B),
      (∀ w2 : World B, w2 ("01" ++ r.ID) = w ("01" ++ r.ID) →
        CastVote J stub w2 b t = (e, ups w2)) ∧
      (ups = id ∨
        (∃ bj, ups = fun w2 => Function.update w2 ("01" ++ r.ID) (some bj)) ∨
        ∃ bj tj, ups = fun w2 =>
          Function.update (Function.update w2 ("01" ++ r.ID) (some bj))
            ("00" ++ r.ID) (some tj)) := by
  cases hg : stub.getStateErr ("01" ++ r.ID) with
  | some e =>
    exact ⟨(CastVote J stub w b t).1, id, fun w2 _ => by
      simp [CastVote, hres, idExistsInChannel1, GetState, hg], Or.inl rfl⟩
  | none =>
    cases hw : w ("01" ++ r.ID) with
    | some x =>
      exact ⟨(CastVote J stub w b t).1, id, fun w2 h2 => by
        simp [CastVote, hres, idExistsInChannel1, GetState, hg, h2, hw], Or.inl rfl⟩
    | none =>
      cases hb : J.marshalBallot ⟨b, hashWithSalt t r.Salt, "01" ++ r.ID⟩ with
      | error e =>
        exact ⟨(CastVote J stub w b t).1, id, fun w2 h2 => by
          simp [CastVote, hres, idExistsInChannel1, GetState, hg, h2, hw, hb], Or.inl rfl⟩
      | ok bj =>
        cases hp : stub.putStateErr ("01" ++ r.ID) with
        | some e =>
          exact ⟨(CastVote J stub w b t).1, id, fun w2 h2 => by
            simp [CastVote, hres, idExistsInChannel1, GetState, PutState, hg, h2, hw, hb, hp],
            Or.inl rfl⟩
        | none =>
          cases ht : J.marshalTransaction
              ⟨hashWithSalt t r.Salt, "00" ++ r.ID, r.VCMSdSignature⟩ with
          | error e =>
            exact ⟨(CastVote J stub w b t).1, fun w2 => Function.update w2 ("01" ++ r.ID) (some bj), fun w2 h2 => by
              simp [CastVote, hres, idExistsInChannel1, GetState, PutState, hg, h2, hw, hb, hp,
                ht], Or.inr (Or.inl ⟨bj, rfl⟩)⟩
          | ok tj =>
            cases hq : stub.putStateErr ("00" ++ r.ID) with
            | some e =>
              exact ⟨(CastVote J stub w b t).1, fun w2 => Function.update w2 ("01" ++ r.ID) (some bj), fun w2 h2 => by
                simp [CastVote, hres, idExistsInChannel1, GetState, PutState, hg, h2, hw, hb,
                  hp, ht, hq], Or.inr (Or.inl ⟨bj, rfl⟩)⟩
            | none =>
              exact ⟨(CastVote J stub w b t).1, fun w2 => Function.update (Function.update w2 ("01" ++ r.ID) (some bj))
                  ("00" ++ r.ID) (some tj), fun w2 h2 => by
                simp [CastVote, hres, idExistsInChannel1, GetState, PutState, hg, h2, hw, hb,
                  hp, ht, hq], Or.inr (Or.inr ⟨bj, tj, rfl⟩)⟩

/-- After resolution, the error of `PostVoting` and the write it makes depend
on the world only through what is stored under `"10" + ID`; the write is none
or the reveal. -/
theorem PostVoting_shape {J : Json B} {stub : Stub B} {t v : String} {r : VotingTokenRecord}
    (w : World B) (hres : GetVotingTokenFromChannel2 J stub t = .ok r) :
    ∃ (e : Option GoError) (ups : World B → World B),
      (∀ w2 : World B, w2 ("10" ++ r.ID) = w ("10" ++ r.ID) →
        PostVoting J stub w2 t v = (e, ups w2)) ∧
      (ups = id ∨ ∃ pj, ups = fun w2 => Function.update w2 ("10" ++ r.ID) (some pj)) := by
  cases hg : stub.getStateErr ("10" ++ r.ID) with
  | some e =>
    exact ⟨(PostVoting J stub w t v).1, id, fun w2 _ => by
      simp [PostVoting, hres, idExistsInChannel1, GetState, hg], Or.inl rfl⟩
  | none =>
    cases hw : w ("10" ++ r.ID) with
    | some x =>
      exact ⟨(PostVoting J stub w t v).1, id, fun w2 h2 => by
        simp [PostVoting, hres, idExistsInChannel1, GetState, hg, h2, hw], Or.inl rfl⟩
    | none =>
      cases hb : J.marshalPostVoting ⟨hashWithSalt r.VcmsTokenHash r.Salt, v, "10" ++ r.ID⟩ with
      | error e =>
        exact ⟨(PostVoting J stub w t v).1, id, fun w2 h2 => by
          simp [PostVoting, hres, idExistsInChannel1, GetState, hg, h2, hw, hb], Or.inl rfl⟩
      | ok pj =>
        cases hp : stub.putStateErr ("10" ++ r.ID) with
        | some e =>
          exact ⟨(PostVoting J stub w t v).1, id, fun w2 h2 => by
            simp [PostVoting, hres, idExistsInChannel1, GetState, PutState, hg, h2, hw, hb, hp],
            Or.inl rfl⟩
        | none =>
          exact ⟨(PostVoting J stub w t v).1, fun w2 => Function.update w2 ("10" ++ r.ID) (some pj), fun w2 h2 => by
            simp [PostVoting, hres, idExistsInChannel1, GetState, PutState, hg, h2, hw, hb, hp],
            Or.inr ⟨pj, rfl⟩⟩

theorem reveal_ne_marker (x y : String) : "10" ++ x ≠ "00" ++ y := fun h =>
  Kind.noConfusion (@code_append_inj .PostVotingReveal .CastMarker x y h).1

theorem reveal_ne_ballot (x y : String) : "10" ++ x ≠ "01" ++ y := fun h =>
  Kind.noConfusion (@code_append_inj .PostVotingReveal .Ballot x y h).1

theorem QueryCastVote_world (J : Json B) (stub : Stub B) (w : World B) (t : String) :
    (QueryCastVote J stub w t).2 = w := by
  cases hres : GetVotingTokenFromChannel2 J stub t with
  | error e => simp [QueryCastVote, hres]
  | ok r => rw [QueryCastVote_eq hres]

theorem QueryPostVoting_world (J : Json B) (stub : Stub B) (w : World B) (t : String) :
    (QueryPostVoting J stub w t).2 = w := by
  cases hres : GetVotingTokenFromChannel2 J stub t with
  | error e => simp [QueryPostVoting, hres]
  | ok r => rw [QueryPostVoting_eq hres]

theorem update_present {w : World B} {key k : String} {x : B} (h : w key ≠ none) :
    Function.update w k (some x) key ≠ none := by
  by_cases hk : key = k
  · subst hk
    simp
  · rwa [Function.update_noteq hk]

/-- `CastVote` deletes nothing. -/
theorem CastVote_keeps (J : Json B) (stub : Stub B) (w : World B) (b t : String)
    {key : String} (h : w key ≠ none) : (CastVote J stub w b t).2 key ≠ none := by
  cases hres : GetVotingTokenFromChannel2 J stub t with
  | error e => rwa [CastVote_unresolved hres]
  | ok r =>
    obtain ⟨e, ups, hrun, hups⟩ := CastVote_shape (b := b) w hres
    rw [hrun w rfl]
    rcases hups with rfl | ⟨bj, rfl⟩ | ⟨bj, tj, rfl⟩
    · exact h
    · exact update_present h
    · exact update_present (update_present h)

/-- `PostVoting` deletes nothing. -/
theorem PostVoting_keeps (J : Json B) (stub : Stub B) (w : World B) (t v : String)
    {key : String} (h : w key ≠ none) : (PostVoting J stub w t v).2 key ≠ none := by
  cases hres : GetVotingTokenFromChannel2 J stub t with
  | error e => rwa [PostVoting_unresolved hres]
  | ok r =>
    obtain ⟨e, ups, hrun, hups⟩ := PostVoting_shape (v := v) w hres
    rw [hrun w rfl]
    rcases hups with rfl | ⟨pj, rfl⟩
    · exact h
    · exact update_present h

theorem writes_keeps (J : Json B) (w : World B) (c : Call B) {key : String}
    (h : w key ≠ none) : (c.writes J w) key ≠ none := by
  cases c with
  | castVote stub b t => exact CastVote_keeps J stub w b t h
  | postVoting stub t v => exact PostVoting_keeps J stub w t v h
  | queryCastVote stub t =>
    show (QueryCastVote J stub w t).2 key ≠ none
    rwa [QueryCastVote_world]
  | queryPostVoting stub t =>
    show (QueryPostVoting J stub w t).2 key ≠ none
    rwa [QueryPostVoting_world]

theorem commit_keeps (J : Json B) (w : World B) (c : Call B) {key : String}
    (h : w key ≠ none) : (c.commit J w) key ≠ none := by
  unfold Call.commit
  split
  · exact writes_keeps J w c h
  · exact h

/-! ## No transition back -/

/-- C12. No operation deletes a key: for every world state, each key present
before a call of `CastVote`, `PostVoting`, `QueryCastVote` or
`QueryPostVoting`, with any arguments and any answer of the peer, is present
after it, and so after any sequence of calls, whether the writes of a failed
call stay or not; an identity that has voted or revealed stays so. -/
theorem no_key_deleted (J : Json B) (w : World B) (key : String) (hpresent : w key ≠ none) :
    (∀ (stub : Stub B) (b t v : String),
      (CastVote J stub w b t).2 key ≠ none ∧ (PostVoting J stub w t v).2 key ≠ none ∧
      (QueryCastVote J stub w t).2 key ≠ none ∧ (QueryPostVoting J stub w t).2 key ≠ none) ∧
    (∀ calls : List (Call B),
      (runWrites J w calls) key ≠ none ∧ (runCommitted J w calls) key ≠ none) := by
  refine ⟨fun stub b t v => ⟨CastVote_keeps J stub w b t hpresent,
    PostVoting_keeps J stub w t v hpresent, ?_, ?_⟩, fun calls => ⟨?_, ?_⟩⟩
  · rwa [QueryCastVote_world]
  · rwa [QueryPostVoting_world]
  · induction calls generalizing w with
    | nil => exact hpresent
    | cons c cs ih => exact ih (c.writes J w) (writes_keeps J w c hpresent)
  · induction calls generalizing w with
    | nil => exact hpresent
    | cons c cs ih => exact ih (c.commit J w) (commit_keeps J w c hpresent)

theorem no_key_deleted_witness :
    votedWorld "00I1" ≠ none ∧
    (runCommitted docJson votedWorld
      [.castVote (peerOf recI1) "no" "tf1", .postVoting (peerOf recI1) "tf1" "token-1",
        .queryCastVote peerDown "tf1"]) "00I1" ≠ none :=
  have hpresent : votedWorld "00I1" ≠ none :=
    fun h => Option.noConfusion ((rfl : _ = some (Doc.object
      [("vcmsTokenHash", hashWithSalt "tf1" "s1"), ("id", "00I1"),
        ("vcmsdSignature", "sig1")])).symm.trans h)
  ⟨hpresent, ((no_key_deleted docJson votedWorld "00I1" hpresent).2 _).2⟩

/-! ## The digest -/

theorem bigEndian_length (k n : Nat) : (bigEndian k n).length = k := by
  induction k with
  | zero => rfl
  | succ k ih => simp [bigEndian, ih]

theorem sha1Sum_length (msg : List Nat) : (sha1Sum msg).length = 20 := by
  simp [sha1Sum, bigEndian_length]

theorem hexString_length (bytes : List Nat) : (hexString bytes).length = 2 * bytes.length := by
  unfold hexString
  rw [String.length_mk]
  induction bytes with
  | nil => rfl
  | cons b bs ih =>
    simp only [List.flatMap_cons, List.length_append, List.length_cons, List.length_nil, ih]
    omega

theorem hexDigit_mem (n : Nat) (h : n < 16) : hexDigit n ∈ "0123456789abcdef".data := by
  interval_cases n <;> decide

theorem hexString_chars (bytes : List Nat) :
    ∀ c ∈ (hexString bytes).data, c ∈ "0123456789abcdef".data := by
  unfold hexString
  intro c hc
  simp only [List.mem_flatMap, List.mem_cons, List.mem_singleton] at hc
  obtain ⟨b, -, hcb⟩ := hc
  simp only [List.not_mem_nil, or_false] at hcb
  rcases hcb with rfl | rfl
  · exact hexDigit_mem _ (Nat.mod_lt _ (by decide))
  · exact hexDigit_mem _ (Nat.mod_lt _ (by decide))

theorem hashWithSalt_length (input salt : String) : (hashWithSalt input salt).length = 40 := by
  unfold hashWithSalt
  simp only [hexString_length, sha1Sum_length]

set_option maxRecDepth 100000 in
/-- C13, on the code: `hashWithSalt` calls `sha1.Sum`, not SHA-256. For the
input `tf1` and the salt `s1` it returns the SHA-1 digest of `tf1s1`, of 40
hexadecimal characters, and not the SHA-256 digest of 64 characters. -/
theorem hashWithSalt_tf1_s1 :
    hashWithSalt "tf1" "s1" = "9b53a279c0f9b0b4fe2b52279e853a72e74d8ed4" ∧
    (hashWithSalt "tf1" "s1").length = 40 ∧
    hashWithSalt "tf1" "s1" ≠
      "440c6a6fa40024f4870021a77f5aff20280bc5665fbd43e4e893d4ae0673eb93" :=
  have h : hashWithSalt "tf1" "s1" = "9b53a279c0f9b0b4fe2b52279e853a72e74d8ed4" := by decide
  ⟨h, by rw [h]; decide, by rw [h]; decide⟩

/-- C14. `hashWithSalt` produces a fixed-width hexadecimal string: for all
inputs and salts, the empty ones included, the result has 40 characters, two
for each of the 20 bytes of the digest, a byte below 16 keeping its leading
zero, and every character is one of `0`-`9`, `a`-`f`. -/
theorem hashWithSalt_fixed_width (input salt : String) :
    (hashWithSalt input salt).length = 40 ∧
    (hashWithSalt input salt).length = (hashWithSalt "" "").length ∧
    (hashWithSalt input salt).length = 2 * (sha1Sum (stringBytes (input ++ salt))).length ∧
    (∀ c ∈ (hashWithSalt input salt).data, c ∈ "0123456789abcdef".data) ∧
    hexString [0, 10, 255] = "000aff" := by
  refine ⟨hashWithSalt_length _ _, ?_, ?_, ?_, by decide⟩
  · rw [hashWithSalt_length, hashWithSalt_length]
  · rw [hashWithSalt_length, sha1Sum_length]
  · exact hexString_chars _

/-! ## A vote half written -/

/-- C15, as stated, fails: in a world that passes the check of `CastVote` and
already holds a marker under `"00I1"`, with the write of the ballot answering
and the write of the marker failing, `CastVote` returns an error and the
ballot is stored, but the marker key is not absent: it holds the marker that
was there. -/
theorem CastVote_half_written_old_marker :
    markedWorld "01I1" = none ∧
    markerUnwritable.putStateErr "01I1" = none ∧
    markerUnwritable.putStateErr "00I1" = some "ledger unavailable" ∧
    (CastVote docJson markerUnwritable markedWorld "yes" "tf1").1 =
      some "failed to store transaction type1 record: ledger unavailable" ∧
    (CastVote docJson markerUnwritable markedWorld "yes" "tf1").2 "01I1" =
      some (.object [("ballot", "yes"), ("votingTokenHash", hashWithSalt "tf1" "s1"),
        ("id", "01I1")]) ∧
    (CastVote docJson markerUnwritable markedWorld "yes" "tf1").2 "00I1" =
      some (.object [("vcmsTokenHash", "h0"), ("id", "00I1"), ("vcmsdSignature", "sig0")]) :=
  ⟨rfl, rfl, rfl, rfl, rfl, rfl⟩

/-- C15, amended. The ballot is written before the marker and nothing is
rolled back: for every world state that passes the check of `CastVote`, when
the write of the ballot answers and the write of the marker fails, `CastVote`
returns the error of that write, and the resulting world holds the ballot
under `"01" + ID` and, under `"00" + ID`, what was there before the call, so
that the marker is absent when it was absent. -/
theorem CastVote_half_written (J : Json B) (stub : Stub B) (w : World B) (b t : String)
    (r : VotingTokenRecord) (bj tj : B) (e : GoError)
    (hres : GetVotingTokenFromChannel2 J stub t = .ok r)
    (hg : stub.getStateErr ("01" ++ r.ID) = none) (hw : w ("01" ++ r.ID) = none)
    (hb : J.marshalBallot ⟨b, hashWithSalt t r.Salt, "01" ++ r.ID⟩ = .ok bj)
    (hp : stub.putStateErr ("01" ++ r.ID) = none)
    (ht : J.marshalTransaction ⟨hashWithSalt t r.Salt, "00" ++ r.ID, r.VCMSdSignature⟩ = .ok tj)
    (hq : stub.putStateErr ("00" ++ r.ID) = some e) :
    (CastVote J stub w b t).1 = some ("failed to store transaction type1 record: " ++ e) ∧
    (CastVote J stub w b t).2 = Function.update w ("01" ++ r.ID) (some bj) ∧
    (CastVote J stub w b t).2 ("01" ++ r.ID) = some bj ∧
    (CastVote J stub w b t).2 ("00" ++ r.ID) = w ("00" ++ r.ID) ∧
    (w ("00" ++ r.ID) = none → (CastVote J stub w b t).2 ("00" ++ r.ID) = none) := by
  have hrun : CastVote J stub w b t =
      (some ("failed to store transaction type1 record: " ++ e),
        Function.update w ("01" ++ r.ID) (some bj)) := by
    simp [CastVote, hres, idExistsInChannel1, GetState, PutState, hg, hw, hb, hp, ht, hq]
  rw [hrun]
  refine ⟨rfl, rfl, ?_, ?_, fun h0 => ?_⟩
  · simp
  · show Function.update w ("01" ++ r.ID) (some bj) ("00" ++ r.ID) = w ("00" ++ r.ID)
    rw [Function.update_noteq (marker_ne_ballot _ _)]
  · show Function.update w ("01" ++ r.ID) (some bj) ("00" ++ r.ID) = none
    rw [Function.update_noteq (marker_ne_ballot _ _), h0]

theorem CastVote_half_written_witness :
    GetVotingTokenFromChannel2 docJson markerUnwritable "tf1" = .ok recI1 ∧
    emptyWorld ("01" ++ recI1.ID) = none ∧
    markerUnwritable.putStateErr ("00" ++ recI1.ID) = some "ledger unavailable" ∧
    (CastVote docJson markerUnwritable emptyWorld "yes" "tf1").1 =
      some ("failed to store transaction type1 record: " ++ "ledger unavailable") ∧
    (CastVote docJson markerUnwritable emptyWorld "yes" "tf1").2 ("00" ++ recI1.ID) = none :=
  have h := CastVote_half_written docJson markerUnwritable emptyWorld "yes" "tf1" recI1
    _ _ "ledger unavailable" rfl rfl rfl rfl rfl rfl rfl
  ⟨rfl, rfl, rfl, h.1, h.2.2.2.2 rfl⟩

/-! ## The fingerprint of a reveal -/

/-- C16. `PostVoting` binds the reveal with the fingerprint stored in the
identity record, not with the one the caller gives: for every world state and
any two tokens resolving to the same record `r`, `PostVoting t1 v` and
`PostVoting t2 v` return the same error and the same world, and when they
succeed the record written under `"10" + ID` is the one with fingerprint
`hashWithSalt r.VcmsTokenHash r.Salt`, token `v` and identifier `"10" + ID`. -/
theorem PostVoting_binds_stored_fingerprint (J : Json B) (stub : Stub B) (w : World B)
    (t1 t2 v : String) (r : VotingTokenRecord)
    (h1 : GetVotingTokenFromChannel2 J stub t1 = .ok r)
    (h2 : GetVotingTokenFromChannel2 J stub t2 = .ok r) :
    PostVoting J stub w t1 v = PostVoting J stub w t2 v ∧
    ((PostVoting J stub w t1 v).1 = none →
      ∃ pj,
        J.marshalPostVoting
          { HashedVcmsToken := hashWithSalt r.VcmsTokenHash r.Salt, VotingToken := v,
            ID := "10" ++ r.ID } = .ok pj ∧
        (PostVoting J stub w t1 v).2 = Function.update w ("10" ++ r.ID) (some pj) ∧
        (PostVoting J stub w t2 v).2 = Function.update w ("10" ++ r.ID) (some pj)) := by
  have heq : PostVoting J stub w t1 v = PostVoting J stub w t2 v := by
    simp only [PostVoting, h1, h2]
  refine ⟨heq, fun hok => ?_⟩
  obtain ⟨_, _, pj, hp, _, hw1⟩ := PostVoting_success h1 hok
  exact ⟨pj, hp, hw1, heq ▸ hw1⟩

theorem PostVoting_binds_stored_fingerprint_witness :
    GetVotingTokenFromChannel2 docJson (peerOf recI1) "tf1" = .ok recI1 ∧
    GetVotingTokenFromChannel2 docJson (peerOf recI1) "another-fingerprint" = .ok recI1 ∧
    PostVoting docJson (peerOf recI1) emptyWorld "tf1" "token-1" =
      PostVoting docJson (peerOf recI1) emptyWorld "another-fingerprint" "token-1" ∧
    (PostVoting docJson (peerOf recI1) emptyWorld "another-fingerprint" "token-1").2 "10I1" =
      some (.object [("hashedVcmsToken", hashWithSalt "tf1" "s1"), ("votingToken", "token-1"),
        ("id", "10I1")]) :=
  have h := PostVoting_binds_stored_fingerprint docJson (peerOf recI1) emptyWorld
    "tf1" "another-fingerprint" "token-1" recI1 rfl rfl
  ⟨rfl, rfl, h.1, (congrFun (congrArg Prod.snd h.1.symm) "10I1").trans rfl⟩

/-! ## Votes and reveals do not meet -/

/-- C17. Voting and revealing are orthogonal: for every world state, peers
and arguments, `CastVote b t1` followed by `PostVoting t2 v` gives the same
error for each call and the same final world as `PostVoting t2 v` followed by
`CastVote b t1`, whether or not `t1` and `t2` resolve to the same identity,
and whether or not the writes succeed. -/
theorem CastVote_PostVoting_commute (J : Json B) (stubC stubP : Stub B) (w : World B)
    (b t1 t2 v : String) :
    (CastVote J stubC (PostVoting J stubP w t2 v).2 b t1).1 = (CastVote J stubC w b t1).1 ∧
    (PostVoting J stubP (CastVote J stubC w b t1).2 t2 v).1 = (PostVoting J stubP w t2 v).1 ∧
    (PostVoting J stubP (CastVote J stubC w b t1).2 t2 v).2 =
      (CastVote J stubC (PostVoting J stubP w t2 v).2 b t1).2 := by
  cases hC : GetVotingTokenFromChannel2 J stubC t1 with
  | error e =>
    simp [CastVote_unresolved hC]
  | ok rC =>
    cases hP : GetVotingTokenFromChannel2 J stubP t2 with
    | error e =>
      simp [PostVoting_unresolved hP]
    | ok rP =>
      obtain ⟨eC, upsC, hrunC, hupsC⟩ := CastVote_shape (b := b) w hC
      obtain ⟨eP, upsP, hrunP, hupsP⟩ := PostVoting_shape (v := v) w hP
      have hCP : (upsP w) ("01" ++ rC.ID) = w ("01" ++ rC.ID) := by
        rcases hupsP with rfl | ⟨pj, rfl⟩
        · rfl
        · exact Function.update_noteq (reveal_ne_ballot _ _).symm _ _
      have hPC : (upsC w) ("10" ++ rP.ID) = w ("10" ++ rP.ID) := by
        rcases hupsC with rfl | ⟨bj, rfl⟩ | ⟨bj, tj, rfl⟩
        · rfl
        · exact Function.update_noteq (reveal_ne_ballot _ _) _ _
        · show Function.update (Function.update w ("01" ++ rC.ID) (some bj))
            ("00" ++ rC.ID) (some tj) ("10" ++ rP.ID) = w ("10" ++ rP.ID)
          rw [Function.update_noteq (reveal_ne_marker _ _),
            Function.update_noteq (reveal_ne_ballot _ _)]
      rw [hrunC w rfl, hrunP w rfl, hrunC (upsP w) hCP, hrunP (upsC w) hPC]
      refine ⟨rfl, rfl, ?_⟩
      show upsP (upsC w) = upsC (upsP w)
      rcases hupsP with rfl | ⟨pj, rfl⟩
      · rfl
      · rcases hupsC with rfl | ⟨bj, rfl⟩ | ⟨bj, tj, rfl⟩
        · rfl
        · show Function.update (Function.update w ("01" ++ rC.ID) (some bj))
              ("10" ++ rP.ID) (some pj) =
            Function.update (Function.update w ("10" ++ rP.ID) (some pj))
              ("01" ++ rC.ID) (some bj)
          exact Function.update_comm (reveal_ne_ballot _ _).symm _ _ _
        · show Function.update (Function.update (Function.update w ("01" ++ rC.ID) (some bj))
              ("00" ++ rC.ID) (some tj)) ("10" ++ rP.ID) (some pj) =
            Function.update (Function.update (Function.update w ("10" ++ rP.ID) (some pj))
              ("01" ++ rC.ID) (some bj)) ("00" ++ rC.ID) (some tj)
          rw [Function.update_comm (reveal_ne_marker rP.ID rC.ID).symm,
            Function.update_comm (reveal_ne_ballot rP.ID rC.ID).symm]

/-! ## What a transaction leaves alone -/

/-- C19. Frame: for every world state and identity record `r` returned by the
resolver, `CastVote` leaves every key other than `"00" + ID` and `"01" + ID`
as it was, `PostVoting` every key other than `"10" + ID`, and `QueryCastVote`
and `QueryPostVoting` leave the whole world as it was, whether they succeed
or fail. -/
theorem frame (J : Json B) (stub : Stub B) (w : World B) (b t v : String)
    (r : VotingTokenRecord) (hres : GetVotingTokenFromChannel2 J stub t = .ok r) :
    (∀ key, key ≠ "00" ++ r.ID → key ≠ "01" ++ r.ID → (CastVote J stub w b t).2 key = w key) ∧
    (∀ key, key ≠ "10" ++ r.ID → (PostVoting J stub w t v).2 key = w key) ∧
    (QueryCastVote J stub w t).2 = w ∧ (QueryPostVoting J stub w t).2 = w := by
  refine ⟨fun key h0 h1 => ?_, fun key h2 => ?_, QueryCastVote_world J stub w t,
    QueryPostVoting_world J stub w t⟩
  · obtain ⟨e, ups, hrun, hups⟩ := CastVote_shape (b := b) w hres
    rw [hrun w rfl]
    rcases hups with rfl | ⟨bj, rfl⟩ | ⟨bj, tj, rfl⟩
    · rfl
    · exact Function.update_noteq h1 _ _
    · show Function.update (Function.update w ("01" ++ r.ID) (some bj))
        ("00" ++ r.ID) (some tj) key = w key
      rw [Function.update_noteq h0, Function.update_noteq h1]
  · obtain ⟨e, ups, hrun, hups⟩ := PostVoting_shape (v := v) w hres
    rw [hrun w rfl]
    rcases hups with rfl | ⟨pj, rfl⟩
    · rfl
    · exact Function.update_noteq h2 _ _

theorem frame_witness :
    GetVotingTokenFromChannel2 docJson (peerOf recI1) "tf1" = .ok recI1 ∧
    "10I1" ≠ "00" ++ recI1.ID ∧ "10I1" ≠ "01" ++ recI1.ID ∧
    (CastVote docJson (peerOf recI1) junkWorld "yes" "tf1").2 "10I1" = some (.raw "?") ∧
    (QueryCastVote docJson (peerOf recI1) junkWorld "tf1").2 = junkWorld :=
  have h := frame docJson (peerOf recI1) junkWorld "yes" "tf1" "token-1" recI1 rfl
  ⟨rfl, by decide, by decide, (h.1 "10I1" (by decide) (by decide)).trans rfl, h.2.2.1⟩

/-! ## Marker and ballot go together -/

theorem marker_inj {x y : String} (h : "00" ++ x = "00" ++ y) : x = y :=
  (@code_append_inj .CastMarker .CastMarker x y h).2

theorem ballot_inj {x y : String} (h : "01" ++ x = "01" ++ y) : x = y :=
  (@code_append_inj .Ballot .Ballot x y h).2

/-- A call run as one transaction keeps markers and ballots together. -/
theorem commit_pairs (J : Json B) (w : World B) (c : Call B)
    (hinv : ∀ X, w ("00" ++ X) ≠ none ↔ w ("01" ++ X) ≠ none) :
    ∀ X, (c.commit J w) ("00" ++ X) ≠ none ↔ (c.commit J w) ("01" ++ X) ≠ none := by
  intro X
  cases c with
  | castVote stub b t =>
    simp only [Call.commit, Call.exec]
    split
    · rename_i hok
      have hok1 : (CastVote J stub w b t).1 = none := Option.isNone_iff_eq_none.mp hok
      cases hres : GetVotingTokenFromChannel2 J stub t with
      | error e =>
        rw [CastVote_unresolved hres] at hok1
        cases hok1
      | ok r =>
        obtain ⟨_, _, bj, tj, _, _, _, _, hw1⟩ := CastVote_success hres hok1
        rw [hw1]
        by_cases hX : X = r.ID
        · subst hX
          rw [Function.update_same, Function.update_noteq (ballot_ne_marker _ _),
            Function.update_same]
          simp
        · have h00 : "00" ++ X ≠ "00" ++ r.ID := fun h => hX (marker_inj h)
          have h11 : "01" ++ X ≠ "01" ++ r.ID := fun h => hX (ballot_inj h)
          rw [Function.update_noteq h00, Function.update_noteq (marker_ne_ballot _ _),
            Function.update_noteq (ballot_ne_marker _ _), Function.update_noteq h11]
          exact hinv X
    · exact hinv X
  | postVoting stub t v =>
    simp only [Call.commit, Call.exec]
    split
    · rename_i hok
      have hok1 : (PostVoting J stub w t v).1 = none := Option.isNone_iff_eq_none.mp hok
      cases hres : GetVotingTokenFromChannel2 J stub t with
      | error e =>
        rw [PostVoting_unresolved hres] at hok1
        cases hok1
      | ok r =>
        obtain ⟨_, _, pj, _, _, hw1⟩ := PostVoting_success hres hok1
        rw [hw1, Function.update_noteq (reveal_ne_marker _ _).symm,
          Function.update_noteq (reveal_ne_ballot _ _).symm]
        exact hinv X
    · exact hinv X
  | queryCastVote stub t =>
    simp only [Call.commit, Call.exec, QueryCastVote_world, ite_self]
    exact hinv X
  | queryPostVoting stub t =>
    simp only [Call.commit, Call.exec, QueryPostVoting_world, ite_self]
    exact hinv X

theorem runCommitted_pairs (J : Json B) (w : World B) (calls : List (Call B))
    (hinv : ∀ X, w ("00" ++ X) ≠ none ↔ w ("01" ++ X) ≠ none) :
    ∀ X, (runCommitted J w calls) ("00" ++ X) ≠ none ↔
      (runCommitted J w calls) ("01" ++ X) ≠ none := by
  induction calls generalizing w with
  | nil => exact hinv
  | cons c cs ih => exact ih (c.commit J w) (commit_pairs J w c hinv)

/-- C18. In every world state reached from the empty one by a sequence of
calls of `CastVote`, `PostVoting`, `QueryCastVote` and `QueryPostVoting`, each
run as one transaction (a failed call commits nothing) and with any answers
of the peer, for every identity `X` the marker key `"00" + X` is present if
and only if the ballot key `"01" + X` is; hence a `CastVote` that succeeds in
such a state found both of its keys absent and writes over no record. -/
theorem marker_iff_ballot (J : Json B) (calls : List (Call B)) :
    (∀ X, (runCommitted J emptyLedger calls) ("00" ++ X) ≠ none ↔
      (runCommitted J emptyLedger calls) ("01" ++ X) ≠ none) ∧
    (∀ (stub : Stub B) (b t : String) (r : VotingTokenRecord),
      GetVotingTokenFromChannel2 J stub t = .ok r →
      (CastVote J stub (runCommitted J emptyLedger calls) b t).1 = none →
      (runCommitted J emptyLedger calls) ("00" ++ r.ID) = none ∧
      (runCommitted J emptyLedger calls) ("01" ++ r.ID) = none) := by
  have hinv := runCommitted_pairs J emptyLedger calls (fun X => by simp [emptyLedger])
  refine ⟨hinv, fun stub b t r hres hok => ?_⟩
  have h01 := (CastVote_success hres hok).2.1
  refine ⟨?_, h01⟩
  by_contra h00
  exact (hinv r.ID).mp h00 h01

theorem marker_iff_ballot_witness :
    GetVotingTokenFromChannel2 docJson (peerOf recI1) "tf1" = .ok recI1 ∧
    (CastVote docJson (peerOf recI1) (runCommitted docJson emptyLedger []) "yes" "tf1").1 =
      none ∧
    (runCommitted docJson emptyLedger []) ("00" ++ recI1.ID) = none ∧
    ((runCommitted docJson emptyLedger
        [.castVote markerUnwritable "yes" "tf1", .castVote (peerOf recI1) "no" "tf1"])
        ("00" ++ "I1") ≠ none ↔
      (runCommitted docJson emptyLedger
        [.castVote markerUnwritable "yes" "tf1", .castVote (peerOf recI1) "no" "tf1"])
        ("01" ++ "I1") ≠ none) :=
  ⟨rfl, rfl,
    ((marker_iff_ballot docJson []).2 (peerOf recI1) "yes" "tf1" recI1 rfl rfl).1,
    (marker_iff_ballot docJson _).1 "I1"⟩

/-! ## The digest sees only the concatenation -/

/-- C20. `hashWithSalt` depends only on the concatenation of its arguments:
for all strings with `a ++ b = c ++ d`, `hashWithSalt a b = hashWithSalt c d`;
so for two tokens `a`, `c` resolving to records of one identity with salts
`b`, `d`, `QueryCastVote` succeeds for the one exactly when it does for the
other, and answers with the same fingerprint and the same records. -/
theorem hashWithSalt_concat (a b c d : String) (h : a ++ b = c ++ d) :
    hashWithSalt a b = hashWithSalt c d ∧
    ∀ (J : Json B) (stub : Stub B) (w : World B) (r1 r2 : VotingTokenRecord),
      GetVotingTokenFromChannel2 J stub a = .ok r1 →
      GetVotingTokenFromChannel2 J stub c = .ok r2 →
      r1.Salt = b → r2.Salt = d → r1.ID = r2.ID →
      succeeded (QueryCastVote J stub w a).1 = succeeded (QueryCastVote J stub w c).1 ∧
      ∀ resp1 resp2, (QueryCastVote J stub w a).1 = .ok resp1 →
        (QueryCastVote J stub w c).1 = .ok resp2 →
        resp1.HashedVotingToken = resp2.HashedVotingToken ∧
        resp1.TransactionType1 = resp2.TransactionType1 ∧ resp1.Ballot = resp2.Ballot := by
  have hh : hashWithSalt a b = hashWithSalt c d := by
    simp only [hashWithSalt, h]
  refine ⟨hh, fun J stub w r1 r2 h1 h2 hb hd hid => ?_⟩
  subst hb hd
  rw [QueryCastVote_eq h1, QueryCastVote_eq h2, hid, hh]
  cases keptMarker J stub w r2.ID (hashWithSalt c r2.Salt) <;>
  cases keptBallot J stub w r2.ID (hashWithSalt c r2.Salt) <;>
  · refine ⟨rfl, fun resp1 resp2 e1 e2 => ?_⟩
    first
      | (cases e1
         cases e2
         exact ⟨rfl, rfl, rfl⟩)
      | cases e1

theorem hashWithSalt_concat_witness :
    "ab" ++ "c" = "a" ++ "bc" ∧
    hashWithSalt "ab" "c" = hashWithSalt "a" "bc" ∧
    GetVotingTokenFromChannel2 docJson peerTwoSalts "ab" = .ok recSaltC ∧
    GetVotingTokenFromChannel2 docJson peerTwoSalts "a" = .ok recSaltBC ∧
    succeeded (QueryCastVote docJson peerTwoSalts emptyWorld "ab").1 =
      succeeded (QueryCastVote docJson peerTwoSalts emptyWorld "a").1 :=
  have h := hashWithSalt_concat "ab" "c" "a" "bc" rfl
  ⟨rfl, h.1, rfl, rfl,
    (h.2 docJson peerTwoSalts emptyWorld recSaltC recSaltBC rfl rfl rfl rfl rfl).1⟩

/-! ## Strings that are not UTF-8 -/

namespace Bytes

theorem stringBytes_append (a b : String) :
    stringBytes (a ++ b) = stringBytes a ++ stringBytes b := by
  simp [stringBytes, String.data_append, List.flatMap_append]

theorem lit_hexDigit (n : Nat) (h : n < 16) :
    (String.utf8EncodeChar (Ballot8.hexDigit n)).map UInt8.toNat = [hexDigit n] := by
  interval_cases n <;> decide

theorem lit_hexString (bytes : List Nat) : lit (Ballot8.hexString bytes) = hexString bytes := by
  unfold lit stringBytes Ballot8.hexString hexString
  induction bytes with
  | nil => rfl
  | cons b bs ih =>
    simp only [List.flatMap_cons, List.flatMap_append, List.flatMap_nil, List.append_nil,
      List.singleton_append, List.cons_append, List.nil_append] at ih ⊢
    rw [ih, lit_hexDigit _ (Nat.mod_lt _ (by decide)), lit_hexDigit _ (Nat.mod_lt _ (by decide))]
    rfl

/-- On Go strings that are UTF-8 text the two forms of `hashWithSalt` agree. -/
theorem hashWithSalt_lit (input salt : String) :
    hashWithSalt (lit input) (lit salt) = lit (Ballot8.hashWithSalt input salt) := by
  show hexString (sha1Sum (lit input ++ lit salt)) =
    lit (Ballot8.hexString (sha1Sum (stringBytes (input ++ salt))))
  rw [lit_hexString, stringBytes_append]
  rfl

theorem lit_marker : lit "00" = [48, 48] := by decide

theorem lit_ballot : lit "01" = [48, 49] := by decide

theorem lit_reveal : lit "10" = [49, 48] := by decide

theorem bytes_ballot_ne_marker (x y : GoString) : lit "01" ++ x ≠ lit "00" ++ y := by
  rw [lit_ballot, lit_marker]
  simp

/-- A successful `CastVote` read no ballot under `Index2`, and wrote the
ballot under `Index2` and then the marker under `Index1`. -/
theorem bytes_CastVote_success {J : Json B} {stub : Stub B} {w : World B} {b t : GoString}
    {r : VotingTokenRecord} (hres : GetVotingTokenFromChannel2 J stub t = .ok r)
    (hok : (CastVote J stub w b t).1 = none) :
    stub.getStateErr (lit "01" ++ r.ID) = none ∧ w (lit "01" ++ r.ID) = none ∧
    ∃ bj tj,
      J.marshalBallot ⟨b, hashWithSalt t r.Salt, lit "01" ++ r.ID⟩ = .ok bj ∧
      J.marshalTransaction ⟨hashWithSalt t r.Salt, lit "00" ++ r.ID, r.VCMSdSignature⟩ =
        .ok tj ∧
      stub.putStateErr (lit "01" ++ r.ID) = none ∧ stub.putStateErr (lit "00" ++ r.ID) = none ∧
      (CastVote J stub w b t).2 =
        Function.update (Function.update w (lit "01" ++ r.ID) (some bj))
          (lit "00" ++ r.ID) (some tj) := by
  simp only [CastVote, hres, idExistsInChannel1, GetState, PutState] at hok ⊢
  cases hg : stub.getStateErr (lit "01" ++ r.ID) with
  | some e => simp [hg] at hok
  | none =>
    cases hw : w (lit "01" ++ r.ID) with
    | some v => simp [hg, hw] at hok
    | none =>
      cases hb : J.marshalBallot ⟨b, hashWithSalt t r.Salt, lit "01" ++ r.ID⟩ with
      | error e => simp [hg, hw, hb] at hok
      | ok bj =>
        cases hp : stub.putStateErr (lit "01" ++ r.ID) with
        | some e => simp [hg, hw, hb, hp] at hok
        | none =>
          cases ht : J.marshalTransaction
              ⟨hashWithSalt t r.Salt, lit "00" ++ r.ID, r.VCMSdSignature⟩ with
          | error e => simp [hg, hw, hb, hp, ht] at hok
          | ok tj =>
            cases hq : stub.putStateErr (lit "00" ++ r.ID) with
            | some e => simp [hg, hw, hb, hp, ht, hq] at hok
            | none => simp [hg, hw, hb, hp, ht, hq]

/-- A successful `PostVoting` read no reveal under `Index3` and wrote one there. -/
theorem bytes_PostVoting_success {J : Json B} {stub : Stub B} {w : World B} {t v : GoString}
    {r : VotingTokenRecord} (hres : GetVotingTokenFromChannel2 J stub t = .ok r)
    (hok : (PostVoting J stub w t v).1 = none) :
    stub.getStateErr (lit "10" ++ r.ID) = none ∧ w (lit "10" ++ r.ID) = none ∧
    ∃ pj,
      J.marshalPostVoting ⟨hashWithSalt r.VcmsTokenHash r.Salt, v, lit "10" ++ r.ID⟩ = .ok pj ∧
      stub.putStateErr (lit "10" ++ r.ID) = none ∧
      (PostVoting J stub w t v).2 = Function.update w (lit "10" ++ r.ID) (some pj) := by
  simp only [PostVoting, hres, idExistsInChannel1, GetState, PutState] at hok ⊢
  cases hg : stub.getStateErr (lit "10" ++ r.ID) with
  | some e => simp [hg] at hok
  | none =>
    cases hw : w (lit "10" ++ r.ID) with
    | some v => simp [hg, hw] at hok
    | none =>
      cases hb : J.marshalPostVoting
          ⟨hashWithSalt r.VcmsTokenHash r.Salt, v, lit "10" ++ r.ID⟩ with
      | error e => simp [hg, hw, hb] at hok
      | ok pj =>
        cases hp : stub.putStateErr (lit "10" ++ r.ID) with
        | some e => simp [hg, hw, hb, hp] at hok
        | none => simp [hg, hw, hb, hp]

/-- `QueryCastVote` on a ballot that is read, decodes and carries the
fingerprint: it succeeds and answers with that ballot. -/
theorem bytes_QueryCastVote_ballot {J : Json B} {stub : Stub B} {w : World B} {t : GoString}
    {r : VotingTokenRecord} {bs : B} {bl : BallotRecord}
    (hres : GetVotingTokenFromChannel2 J stub t = .ok r)
    (hget : GetState stub w (lit "01" ++ r.ID) = .ok (some bs))
    (hu : J.unmarshalBallot bs = .ok bl)
    (hh : bl.VotingTokenHash = hashWithSalt t r.Salt) :
    ∃ resp, (QueryCastVote J stub w t).1 = .ok resp ∧ resp.Status = true ∧
      resp.Ballot = some bl ∧ resp.VotingTokenHash = t ∧
      resp.HashedVotingToken = hashWithSalt t r.Salt := by
  simp only [QueryCastVote, hres, hget, hu, hh]
  rcases hm : GetState stub w (lit "00" ++ r.ID) with e | _ | ms
  · exact ⟨⟨t, hashWithSalt t r.Salt, true, none, some bl⟩, by simp, rfl, rfl, rfl, rfl⟩
  · exact ⟨⟨t, hashWithSalt t r.Salt, true, none, some bl⟩, by simp, rfl, rfl, rfl, rfl⟩
  · dsimp only
    cases hum : J.unmarshalTransaction ms with
    | error e =>
      exact ⟨⟨t, hashWithSalt t r.Salt, true, none, some bl⟩, by simp, rfl, rfl, rfl, rfl⟩
    | ok tx =>
      by_cases hx : tx.VcmsTokenHash = hashWithSalt t r.Salt
      · exact ⟨⟨t, hashWithSalt t r.Salt, true, some tx, some bl⟩, by simp [hx],
          rfl, rfl, rfl, rfl⟩
      · exact ⟨⟨t, hashWithSalt t r.Salt, true, none, some bl⟩, by simp [hx],
          rfl, rfl, rfl, rfl⟩

/-- `QueryPostVoting` on a reveal that is read, decodes and matches. -/
theorem bytes_QueryPostVoting_matched {J : Json B} {stub : Stub B} {w : World B}
    {t : GoString} {r : VotingTokenRecord} {bs : B} {pv : PostVotingRecord}
    (hres : GetVotingTokenFromChannel2 J stub t = .ok r)
    (hget : GetState stub w (lit "10" ++ r.ID) = .ok (some bs))
    (hu : J.unmarshalPostVoting bs = .ok pv)
    (hh : pv.HashedVcmsToken = hashWithSalt r.VcmsTokenHash r.Salt) :
    (QueryPostVoting J stub w t).1 =
      .ok ⟨t, hashWithSalt r.VcmsTokenHash r.Salt, true, some pv⟩ := by
  simp [QueryPostVoting, hres, hget, hu, hh]

end Bytes

namespace Bytes

/-! ### The coercion of `encoding/json` -/

theorem coerce_ascii (s : GoString) (h : ∀ b ∈ s, b < 0x80) : coerce 0 s = s := by
  induction s with
  | nil => rfl
  | cons b rest ih =>
    have hb : b < 0x80 := h b (List.mem_cons_self _ _)
    have hrest : ∀ c ∈ rest, c < 0x80 := fun c hc => h c (List.mem_cons_of_mem _ hc)
    have hsize : runeSize (b :: rest) = 1 := by simp [runeSize, hb]
    simp only [coerce, hsize, ih hrest]

theorem hexDigit_ascii (n : Nat) (h : n < 16) : hexDigit n < 0x80 := by
  unfold hexDigit
  split <;> omega

theorem hexString_ascii (bytes : List Nat) : ∀ b ∈ hexString bytes, b < 0x80 := by
  intro b hb
  simp only [hexString, List.mem_flatMap, List.mem_cons, List.mem_singleton] at hb
  obtain ⟨x, -, hx⟩ := hb
  simp only [List.not_mem_nil, or_false] at hx
  rcases hx with rfl | rfl
  · exact hexDigit_ascii _ (Nat.mod_lt _ (by decide))
  · exact hexDigit_ascii _ (Nat.mod_lt _ (by decide))

/-- A fingerprint is hexadecimal text, which `encoding/json` reads back as it is. -/
theorem toValidUTF8_hashWithSalt (input salt : GoString) :
    toValidUTF8 (hashWithSalt input salt) = hashWithSalt input salt :=
  coerce_ascii _ (hexString_ascii _)

theorem length_le_coerce (k : Nat) (s : GoString) : s.length ≤ (coerce k s).length := by
  induction s generalizing k with
  | nil => simp [coerce]
  | cons b rest ih =>
    cases k with
    | succ k =>
      simp only [coerce, List.length_cons]
      exact Nat.succ_le_succ (ih k)
    | zero =>
      cases hsize : runeSize (b :: rest) with
      | zero =>
        simp only [coerce, hsize, List.length_cons]
        have := ih 0
        omega
      | succ n =>
        simp only [coerce, hsize, List.length_cons]
        exact Nat.succ_le_succ (ih n)

theorem validFrom_iff (k : Nat) (s : GoString) : validFrom k s = true ↔ coerce k s = s := by
  induction s generalizing k with
  | nil => simp [coerce, validFrom]
  | cons b rest ih =>
    cases k with
    | succ k =>
      simp only [coerce, validFrom, List.cons.injEq, true_and]
      exact ih k
    | zero =>
      cases hsize : runeSize (b :: rest) with
      | zero =>
        simp only [coerce, validFrom, hsize]
        constructor
        · intro h
          cases h
        · intro h
          have hlen := congrArg List.length h
          simp only [List.length_cons] at hlen
          have := length_le_coerce 0 rest
          omega
      | succ n =>
        simp only [coerce, validFrom, hsize, List.cons.injEq, true_and]
        exact ih n

/-- A Go string is read back unchanged exactly when it is valid UTF-8. -/
theorem toValidUTF8_eq_iff (s : GoString) : toValidUTF8 s = s ↔ validUTF8 s = true :=
  (validFrom_iff 0 s).symm

end Bytes

namespace Bytes

/-! ### Writing, then asking, with any bytes -/

theorem goJson_storesCoerced : StoresCoerced goJson := by
  constructor
  · intro r bs h
    cases r
    simp only [goJson, Except.ok.injEq] at h
    subst h
    simp [goJson, Doc.field, List.lookup]
  · intro r bs h
    cases r
    simp only [goJson, Except.ok.injEq] at h
    subst h
    simp [goJson, Doc.field, List.lookup]

set_option maxRecDepth 10000 in
/-- C3, as stated, fails: the ballot `"v\xff\xfe"`, which is not UTF-8, is
cast with success, and `QueryCastVote` with the same token then succeeds with
status true and a ballot record whose `Ballot` is `"v\ufffd\ufffd"`, not the
ballot that was cast. -/
theorem broken_ballot_not_returned :
    brokenBallot = [0x76, 0xFF, 0xFE] ∧
    GetVotingTokenFromChannel2 goJson peerI1 (lit "tf1") = .ok recI1 ∧
    (CastVote goJson peerI1 noRecords brokenBallot (lit "tf1")).1 = none ∧
    ∃ resp,
      (QueryCastVote goJson peerI1
        (CastVote goJson peerI1 noRecords brokenBallot (lit "tf1")).2 (lit "tf1")).1 =
          .ok resp ∧
      resp.Status = true ∧
      resp.Ballot = some ⟨[0x76, 0xEF, 0xBF, 0xBD, 0xEF, 0xBF, 0xBD],
        hashWithSalt (lit "tf1") (lit "s1"), lit "01I1"⟩ ∧
      resp.Ballot.map (fun bl => bl.Ballot) ≠ some brokenBallot := by
  refine ⟨rfl, rfl, rfl, ?_⟩
  have hres : GetVotingTokenFromChannel2 goJson peerI1 (lit "tf1") = .ok recI1 := rfl
  have hget : GetState peerI1 (CastVote goJson peerI1 noRecords brokenBallot (lit "tf1")).2
      (lit "01" ++ recI1.ID) =
      .ok (some (.object [("ballot", toValidUTF8 brokenBallot),
        ("votingTokenHash", toValidUTF8 (hashWithSalt (lit "tf1") recI1.Salt)),
        ("id", toValidUTF8 (lit "01" ++ recI1.ID))])) := rfl
  have hu : goJson.unmarshalBallot (.object [("ballot", toValidUTF8 brokenBallot),
        ("votingTokenHash", toValidUTF8 (hashWithSalt (lit "tf1") recI1.Salt)),
        ("id", toValidUTF8 (lit "01" ++ recI1.ID))]) =
      .ok ⟨toValidUTF8 brokenBallot, toValidUTF8 (hashWithSalt (lit "tf1") recI1.Salt),
        toValidUTF8 (lit "01" ++ recI1.ID)⟩ := rfl
  obtain ⟨resp, hq, hs, hb, -, -⟩ :=
    bytes_QueryCastVote_ballot hres hget hu
      (toValidUTF8_hashWithSalt (lit "tf1") recI1.Salt)
  have hbl : (⟨toValidUTF8 brokenBallot, toValidUTF8 (hashWithSalt (lit "tf1") recI1.Salt),
      toValidUTF8 (lit "01" ++ recI1.ID)⟩ : BallotRecord) =
      ⟨[0x76, 0xEF, 0xBF, 0xBD, 0xEF, 0xBF, 0xBD], hashWithSalt (lit "tf1") (lit "s1"),
        lit "01I1"⟩ := by
    rw [toValidUTF8_hashWithSalt]
    have e1 : toValidUTF8 brokenBallot = [0x76, 0xEF, 0xBF, 0xBD, 0xEF, 0xBF, 0xBD] := by decide
    have e2 : toValidUTF8 (lit "01" ++ recI1.ID) = lit "01I1" := by decide
    rw [e1, e2]
    rfl
  refine ⟨resp, hq, hs, hb.trans (congrArg some hbl), ?_⟩
  rw [hb, hbl]
  decide

/-- C3, amended. Round trip of a vote: for every world state, ballot `b` and
token `t` resolving to the same record `r` in both calls, with `encoding/json`
storing each string coerced to valid UTF-8 and the read of the ballot key
answering, when `CastVote b t` succeeds, `QueryCastVote t` on the resulting
world succeeds with status true, echoes `t` and the fingerprint
`hashWithSalt t r.Salt`, and carries a ballot record with that fingerprint
whose `Ballot` is `b` with each byte that is not UTF-8 replaced by U+FFFD:
it is `b` exactly when `b` is valid UTF-8. -/
theorem QueryCastVote_returns_stored_ballot (J : Json B) (stub1 stub2 : Stub B)
    (w : World B) (b t : GoString) (r : VotingTokenRecord)
    (h1 : GetVotingTokenFromChannel2 J stub1 t = .ok r)
    (h2 : GetVotingTokenFromChannel2 J stub2 t = .ok r)
    (hjson : StoresCoerced J)
    (hread : stub2.getStateErr (lit "01" ++ r.ID) = none)
    (hok : (CastVote J stub1 w b t).1 = none) :
    ∃ resp, (QueryCastVote J stub2 (CastVote J stub1 w b t).2 t).1 = .ok resp ∧
      resp.Status = true ∧ resp.VotingTokenHash = t ∧
      resp.HashedVotingToken = hashWithSalt t r.Salt ∧
      ∃ bl, resp.Ballot = some bl ∧ bl.Ballot = toValidUTF8 b ∧
        bl.VotingTokenHash = hashWithSalt t r.Salt ∧
        (bl.Ballot = b ↔ validUTF8 b = true) := by
  obtain ⟨_, _, bj, tj, hb, _, _, _, hw1⟩ := bytes_CastVote_success h1 hok
  have hstored : (CastVote J stub1 w b t).2 (lit "01" ++ r.ID) = some bj := by
    rw [hw1, Function.update_noteq (bytes_ballot_ne_marker _ _), Function.update_same]
  have hget : GetState stub2 (CastVote J stub1 w b t).2 (lit "01" ++ r.ID) = .ok (some bj) := by
    simp [GetState, hread, hstored]
  obtain ⟨resp, hq, hs, hbl, ht, hh⟩ :=
    bytes_QueryCastVote_ballot h2 hget (hjson.1 _ bj hb) (toValidUTF8_hashWithSalt _ _)
  exact ⟨resp, hq, hs, ht, hh, _, hbl, rfl, toValidUTF8_hashWithSalt _ _,
    toValidUTF8_eq_iff b⟩

theorem QueryCastVote_returns_stored_ballot_witness :
    GetVotingTokenFromChannel2 goJson peerI1 (lit "tf1") = .ok recI1 ∧
    (CastVote goJson peerI1 noRecords (lit "yes") (lit "tf1")).1 = none ∧
    validUTF8 (lit "yes") = true ∧
    ∃ resp,
      (QueryCastVote goJson peerI1
        (CastVote goJson peerI1 noRecords (lit "yes") (lit "tf1")).2 (lit "tf1")).1 =
          .ok resp ∧
      resp.Status = true ∧
      ∃ bl, resp.Ballot = some bl ∧ bl.Ballot = lit "yes" :=
  have h := QueryCastVote_returns_stored_ballot goJson peerI1 peerI1 noRecords
    (lit "yes") (lit "tf1") recI1 rfl rfl goJson_storesCoerced rfl rfl
  ⟨rfl, rfl, by decide, by
    obtain ⟨resp, hq, hs, -, -, bl, hbl, -, -, hiff⟩ := h
    exact ⟨resp, hq, hs, bl, hbl, hiff.mpr (by decide)⟩⟩

set_option maxRecDepth 10000 in
/-- C4, as stated, fails: the token `"t\xff"`, which is not UTF-8, is revealed
with success, and `QueryPostVoting` then succeeds with status true and a
reveal whose `VotingToken` is `"t\ufffd"`, not the token that was revealed. -/
theorem broken_token_not_returned :
    brokenToken = [0x74, 0xFF] ∧
    GetVotingTokenFromChannel2 goJson peerI1 (lit "tf1") = .ok recI1 ∧
    (PostVoting goJson peerI1 noRecords (lit "tf1") brokenToken).1 = none ∧
    (QueryPostVoting goJson peerI1
      (PostVoting goJson peerI1 noRecords (lit "tf1") brokenToken).2 (lit "tf1")).1 =
        .ok { VotingTokenHash := lit "tf1",
              HashedVcmsToken := hashWithSalt (lit "tf1") (lit "s1"), Status := true,
              PostVoting := some ⟨hashWithSalt (lit "tf1") (lit "s1"),
                [0x74, 0xEF, 0xBF, 0xBD], lit "10I1"⟩ } ∧
    ([0x74, 0xEF, 0xBF, 0xBD] : GoString) ≠ brokenToken := by
  refine ⟨rfl, rfl, rfl, ?_, by decide⟩
  have hres : GetVotingTokenFromChannel2 goJson peerI1 (lit "tf1") = .ok recI1 := rfl
  have hget : GetState peerI1 (PostVoting goJson peerI1 noRecords (lit "tf1") brokenToken).2
      (lit "10" ++ recI1.ID) =
      .ok (some (.object [
        ("hashedVcmsToken", toValidUTF8 (hashWithSalt recI1.VcmsTokenHash recI1.Salt)),
        ("votingToken", toValidUTF8 brokenToken),
        ("id", toValidUTF8 (lit "10" ++ recI1.ID))])) := rfl
  have hu : goJson.unmarshalPostVoting (.object [
        ("hashedVcmsToken", toValidUTF8 (hashWithSalt recI1.VcmsTokenHash recI1.Salt)),
        ("votingToken", toValidUTF8 brokenToken),
        ("id", toValidUTF8 (lit "10" ++ recI1.ID))]) =
      .ok ⟨toValidUTF8 (hashWithSalt recI1.VcmsTokenHash recI1.Salt),
        toValidUTF8 brokenToken, toValidUTF8 (lit "10" ++ recI1.ID)⟩ := rfl
  rw [bytes_QueryPostVoting_matched hres hget hu
      (toValidUTF8_hashWithSalt recI1.VcmsTokenHash recI1.Salt),
    toValidUTF8_hashWithSalt]
  have e1 : toValidUTF8 brokenToken = [0x74, 0xEF, 0xBF, 0xBD] := by decide
  have e2 : toValidUTF8 (lit "10" ++ recI1.ID) = lit "10I1" := by decide
  rw [e1, e2]
  rfl

/-- C4, amended. Round trip of a reveal: for every world state, token `t`
resolving to the same record `r` in both calls and revealed token `v`, with
`encoding/json` storing each string coerced to valid UTF-8 and the read of
the reveal key answering, when `PostVoting t v` succeeds, `QueryPostVoting t`
on the resulting world succeeds with status true and a reveal whose
`VotingToken` is `v` with each byte that is not UTF-8 replaced by U+FFFD: it
is `v` exactly when `v` is valid UTF-8. -/
theorem QueryPostVoting_returns_stored_token (J : Json B) (stub1 stub2 : Stub B)
    (w : World B) (t v : GoString) (r : VotingTokenRecord)
    (h1 : GetVotingTokenFromChannel2 J stub1 t = .ok r)
    (h2 : GetVotingTokenFromChannel2 J stub2 t = .ok r)
    (hjson : StoresCoerced J)
    (hread : stub2.getStateErr (lit "10" ++ r.ID) = none)
    (hok : (PostVoting J stub1 w t v).1 = none) :
    (QueryPostVoting J stub2 (PostVoting J stub1 w t v).2 t).1 =
      .ok { VotingTokenHash := t, HashedVcmsToken := hashWithSalt r.VcmsTokenHash r.Salt,
            Status := true,
            PostVoting := some ⟨hashWithSalt r.VcmsTokenHash r.Salt, toValidUTF8 v,
              toValidUTF8 (lit "10" ++ r.ID)⟩ } ∧
    (toValidUTF8 v = v ↔ validUTF8 v = true) := by
  obtain ⟨_, _, pj, hp, _, hw1⟩ := bytes_PostVoting_success h1 hok
  have hstored : (PostVoting J stub1 w t v).2 (lit "10" ++ r.ID) = some pj := by
    rw [hw1, Function.update_same]
  have hget : GetState stub2 (PostVoting J stub1 w t v).2 (lit "10" ++ r.ID) =
      .ok (some pj) := by
    simp [GetState, hread, hstored]
  refine ⟨?_, toValidUTF8_eq_iff v⟩
  rw [bytes_QueryPostVoting_matched h2 hget (hjson.2 _ pj hp) (toValidUTF8_hashWithSalt _ _),
    toValidUTF8_hashWithSalt]

theorem QueryPostVoting_returns_stored_token_witness :
    GetVotingTokenFromChannel2 goJson peerI1 (lit "tf1") = .ok recI1 ∧
    (PostVoting goJson peerI1 noRecords (lit "tf1") (lit "plaintext-token-123")).1 = none ∧
    validUTF8 (lit "plaintext-token-123") = true ∧
    (QueryPostVoting goJson peerI1
      (PostVoting goJson peerI1 noRecords (lit "tf1") (lit "plaintext-token-123")).2
      (lit "tf1")).1 =
        .ok { VotingTokenHash := lit "tf1",
              HashedVcmsToken := hashWithSalt recI1.VcmsTokenHash recI1.Salt, Status := true,
              PostVoting := some ⟨hashWithSalt recI1.VcmsTokenHash recI1.Salt,
                toValidUTF8 (lit "plaintext-token-123"),
                toValidUTF8 (lit "10" ++ recI1.ID)⟩ } ∧
    toValidUTF8 (lit "plaintext-token-123") = lit "plaintext-token-123" :=
  have h := QueryPostVoting_returns_stored_token goJson peerI1 peerI1 noRecords
    (lit "tf1") (lit "plaintext-token-123") recI1 rfl rfl goJson_storesCoerced rfl rfl
  ⟨rfl, rfl, by decide, h.1, h.2.mpr (by decide)⟩

end Bytes

end Ballot8
